import Mathlib

/-!
Shallow embedding of the ironbad contract-annotation engine
(`src/backend/app/features/contract_annotations/services.py`,
`src/backend/app/features/contract_annotations/api.py`,
`src/backend/app/features/contract_agent/services.py` (flatten),
`src/backend/app/features/contract_agent/tools.py` (delete_contract_annotations)),
together with the data model of
`src/backend/app/common/schemas.py` and
`src/backend/app/features/contract_annotations/schemas.py`.

Strings are modelled as `List Char`; Python string slicing (with its clamping
of out-of-range indices and interpretation of negative indices) is modelled
explicitly by `pySlice`/`pyTake`/`pyDrop`.  UUIDs are modelled as `Nat`,
timestamps (`datetime.now`) as an explicit `now : Nat` parameter threaded
through the operations.  `HTTPException`s raised by the handlers are modelled
by an `Except EngineError` result; since the API layer only persists the
aggregate after a handler returns successfully, an error result leaves the
persisted aggregate untouched, which the `Except` shape reflects.
-/

namespace Ironbad

/-- Model of `app.enums.ContractSectionType`. -/
inductive ContractSectionType where
  | root
  | preamble
  | body
  | appendix
deriving DecidableEq, Repr

/-- Model of `app.enums.AnnotationStatus`. -/
inductive AnnotationStatus where
  | pending
  | resolved
  | accepted
  | rejected
  | conflict
  | stale
deriving DecidableEq, Repr

/-- Model of `app.enums.AnnotationAuthor`. -/
inductive AnnotationAuthor where
  | user
  | agent
deriving DecidableEq, Repr

/-- Model of `app.enums.AnnotationType`. -/
inductive AnnotationType where
  | comment
  | revision
  | section_add
  | section_remove
deriving DecidableEq, Repr

/-- Model of `app.enums.ContractAnnotationResolution`. -/
inductive ContractAnnotationResolution where
  | accepted
  | rejected
  | resolved
deriving DecidableEq, Repr

/-- The scalar fields of `app.common.schemas.ContractSectionNode`
(everything except the recursive `children` list). -/
structure NodeData where
  id : String
  type : ContractSectionType
  level : Int
  number : String
  name : Option String
  markdown : List Char
  parent_id : Option String
deriving DecidableEq, Repr

/-- Model of `app.common.schemas.ContractSectionNode`: a section-tree node with an
ordered list of owned children. -/
inductive ContractSectionNode where
  | mk (data : NodeData) (children : List ContractSectionNode)
deriving Repr

namespace ContractSectionNode

def data : ContractSectionNode → NodeData
  | .mk d _ => d

def children : ContractSectionNode → List ContractSectionNode
  | .mk _ cs => cs

def id (n : ContractSectionNode) : String := n.data.id
def type (n : ContractSectionNode) : ContractSectionType := n.data.type
def level (n : ContractSectionNode) : Int := n.data.level
def markdown (n : ContractSectionNode) : List Char := n.data.markdown
def parent_id (n : ContractSectionNode) : Option String := n.data.parent_id

@[simp] theorem data_mk (d : NodeData) (cs : List ContractSectionNode) :
    (ContractSectionNode.mk d cs).data = d := rfl

@[simp] theorem children_mk (d : NodeData) (cs : List ContractSectionNode) :
    (ContractSectionNode.mk d cs).children = cs := rfl

end ContractSectionNode

-- `ContractSectionNode.get_node_by_id` (`app/common/schemas.py`): depth-first
-- search for the first node with the given id; the Python `ValueError` on a
-- missing id is modelled by `none`.
mutual

def getNodeById : ContractSectionNode → String → Option ContractSectionNode
  | .mk d cs, nid =>
    if d.id = nid then some (.mk d cs) else getNodeByIdList cs nid

def getNodeByIdList : List ContractSectionNode → String → Option ContractSectionNode
  | [], _ => none
  | c :: cs, nid =>
    match getNodeById c nid with
    | some r => some r
    | none => getNodeByIdList cs nid

end

theorem getNodeById_def (n : ContractSectionNode) (nid : String) :
    getNodeById n nid =
      if n.id = nid then some n else getNodeByIdList n.children nid := by
  cases n with
  | mk d cs => rfl

/-! ### Python string primitives

`s[b:e]` on a Python `str` clamps out-of-range indices and interprets negative
indices relative to the end of the string; it never raises (the `IndexError`
branch of `validate_anchor_text` is unreachable).  `str.strip()` removes
leading/trailing whitespace, so `not s.strip()` tests that `s` is blank. -/

/-- Normalize a Python slice index `i` against a string of length `len`:
negative indices count from the end, and the result is clamped to `[0, len]`. -/
def pyBound (len : Nat) (i : Int) : Nat :=
  if i < 0 then ((len : Int) + i).toNat else min i.toNat len

/-- Python `s[b:e]` on `s : List Char`. -/
def pySlice (s : List Char) (b e : Int) : List Char :=
  (s.take (pyBound s.length e)).drop (pyBound s.length b)

/-- Python `s[:e]`. -/
def pyTake (s : List Char) (e : Int) : List Char :=
  s.take (pyBound s.length e)

/-- Python `s[b:]`. -/
def pyDrop (s : List Char) (b : Int) : List Char :=
  s.drop (pyBound s.length b)

/-- Python `not s.strip()`: `s` consists only of whitespace (or is empty). -/
def isBlank (s : List Char) : Bool :=
  s.all (fun ch => ch.isWhitespace)

/-! ### Annotations (`app/features/contract_annotations/schemas.py`) -/

/-- Model of `CommentAnnotation`. -/
structure CommentAnnotation where
  id : Nat
  node_id : String
  offset_beg : Int
  offset_end : Int
  anchor_text : List Char
  comment_text : List Char
  author : AnnotationAuthor
  status : AnnotationStatus
  created_at : Nat
  resolved_at : Option Nat
deriving DecidableEq, Repr

/-- Model of `RevisionAnnotation`. -/
structure RevisionAnnotation where
  id : Nat
  node_id : String
  offset_beg : Int
  offset_end : Int
  old_text : List Char
  new_text : List Char
  author : AnnotationAuthor
  status : AnnotationStatus
  created_at : Nat
  resolved_at : Option Nat
deriving DecidableEq, Repr

/-- Model of `SectionAddAnnotation`. -/
structure SectionAddAnnotation where
  id : Nat
  target_parent_id : String
  insertion_index : Int
  new_node : ContractSectionNode
  author : AnnotationAuthor
  status : AnnotationStatus
  created_at : Nat
  resolved_at : Option Nat
deriving Repr

/-- Model of `SectionRemoveAnnotation`. -/
structure SectionRemoveAnnotation where
  id : Nat
  node_id : String
  author : AnnotationAuthor
  status : AnnotationStatus
  created_at : Nat
  resolved_at : Option Nat
deriving DecidableEq, Repr

/-- The `ContractAnnotation` tagged union. -/
inductive ContractAnnotation where
  | comment (a : CommentAnnotation)
  | revision (a : RevisionAnnotation)
  | section_add (a : SectionAddAnnotation)
  | section_remove (a : SectionRemoveAnnotation)
deriving Repr

def ContractAnnotation.id : ContractAnnotation → Nat
  | .comment a => a.id
  | .revision a => a.id
  | .section_add a => a.id
  | .section_remove a => a.id

def ContractAnnotation.status : ContractAnnotation → AnnotationStatus
  | .comment a => a.status
  | .revision a => a.status
  | .section_add a => a.status
  | .section_remove a => a.status

/-- Python attribute access `annotation.node_id` on a `ContractAnnotation`
of unknown runtime type: comments, revisions and section removes carry a
`node_id`; a `SectionAddAnnotation` does not (`AttributeError`, modelled by
`none`). -/
def ContractAnnotation.nodeIdAttr : ContractAnnotation → Option String
  | .comment a => some a.node_id
  | .revision a => some a.node_id
  | .section_add _ => none
  | .section_remove a => some a.node_id

/-- Model of `ContractAnnotations`: the four ordered annotation lists. -/
structure ContractAnnotations where
  comments : List CommentAnnotation := []
  revisions : List RevisionAnnotation := []
  section_adds : List SectionAddAnnotation := []
  section_removes : List SectionRemoveAnnotation := []
deriving Repr

/-- The concatenation scanned by `get_annotation_by_id`. -/
def ContractAnnotations.all (anns : ContractAnnotations) : List ContractAnnotation :=
  anns.comments.map ContractAnnotation.comment
    ++ anns.revisions.map ContractAnnotation.revision
    ++ anns.section_adds.map ContractAnnotation.section_add
    ++ anns.section_removes.map ContractAnnotation.section_remove

/-- Model of `ContractAnnotations.get_annotation_by_id`: first annotation with the given
id in the concatenation of the four lists; `ValueError` is modelled by `none`. -/
def getAnnotationById (anns : ContractAnnotations) (aid : Nat) :
    Option ContractAnnotation :=
  anns.all.find? (fun a => a.id = aid)

/-- The fields of `app.common.schemas.Contract` operated on by the annotation
engine: the section tree (assumed present), the annotation store, and the
integer version. -/
structure Contract where
  section_tree : ContractSectionNode
  annotations : ContractAnnotations
  version : Nat
deriving Repr

/-! ### Errors

Each constructor records one of the `HTTPException`s raised by the handlers
(`services.py` / `api.py`), with the data interpolated into its detail
message. -/

inductive EngineError where
  /-- HTTP 404 `node_id=... not found`. -/
  | nodeNotFound (node_id : String)
  /-- HTTP 404 `annotation_id=... not found` (also covers the uncaught
  `ValueError` from a failing `get_node_by_id` on a parent id). -/
  | annotationNotFound (annotation_id : Nat)
  /-- HTTP 400 `comment text is required` / `both old and new text are required` /
  `new text is required`. -/
  | emptyText
  /-- HTTP 400 `anchor text mismatch! node_id=... expected=... actual=...`. -/
  | anchorMismatch (node_id : String) (expected actual : List Char)
  /-- HTTP 400 `annotation_id=... status=... cannot be resolved!`. -/
  | notPending (annotation_id : Nat) (status : AnnotationStatus)
  /-- HTTP 400 `invalid resolution: ...`. -/
  | invalidResolution (resolution : ContractAnnotationResolution)
  /-- HTTP 400 `insertion_index=... is out of range`. -/
  | insertionIndexOutOfRange (index : Int)
  /-- HTTP 404 `node_id=... is the root node and cannot be removed`. -/
  | rootRemoval (node_id : String)
  /-- HTTP 400 `node_id=... is not a child of parent_node_id=...`. -/
  | notChildOfParent (node_id : String) (parent_node_id : String)
  /-- The found annotation's runtime type is incompatible with the handler
  invoked, and Python fails without persisting anything.  This happens for
  `annotation_type=comment` with a non-comment annotation (the handler's
  in-memory mutation is discarded because building
  `ContractAnnotations(comments=[annotation])` fails pydantic validation —
  every other kind lacks `anchor_text`/`comment_text`/offsets — so the route
  raises before `db.commit()`); for `annotation_type=revision` with a
  non-revision (`AttributeError` on `old_text`/`offset_beg` inside
  `validate_anchor_text`, before any mutation); for
  `annotation_type=section_add` with a non-section-add (`AttributeError` on
  `target_parent_id`); and for `annotation_type=section_remove` with a
  section-add (`AttributeError` on `node_id`).  By contrast,
  `annotation_type=section_remove` with a comment or revision annotation is a
  REAL success path (those kinds carry every attribute the handler and its
  response need), which `handle_resolve_section_remove` below models
  faithfully. -/
  | wrongAnnotationKind (annotation_id : Nat)
deriving DecidableEq, Repr

/-! ### List / tree update helpers

Python mutates the object found by a lookup in place; functionally this is an
update of the first matching element. -/

/-- Update the first element satisfying `p` (there is exactly one matching
object in the Python aliasing discipline). -/
def updateFirstBy (p : α → Bool) (f : α → α) : List α → List α
  | [] => []
  | a :: as => if p a then f a :: as else a :: updateFirstBy p f as

/-- Python `list.remove(x)` with `x` already known to be present: drop the
first element satisfying `p`. -/
def removeFirstBy (p : α → Bool) : List α → List α
  | [] => []
  | a :: as => if p a then as else a :: removeFirstBy p as

-- Pydantic `BaseModel.__eq__`: field-by-field (recursive) structural equality,
-- used by `in`/`list.remove` on lists of nodes.
mutual

def nodeBEq : ContractSectionNode → ContractSectionNode → Bool
  | .mk d1 cs1, .mk d2 cs2 => d1 = d2 && nodeListBEq cs1 cs2

def nodeListBEq : List ContractSectionNode → List ContractSectionNode → Bool
  | [], [] => true
  | a :: as, b :: bs => nodeBEq a b && nodeListBEq as bs
  | _, _ => false

end

-- In-place mutation of the node returned by `get_node_by_id`: apply `f` to
-- the first node (in DFS order) whose id is `nid`, leaving the rest of the
-- tree unchanged.
mutual

def updateNodeById (f : ContractSectionNode → ContractSectionNode) :
    ContractSectionNode → String → ContractSectionNode
  | .mk d cs, nid =>
    if d.id = nid then f (.mk d cs) else .mk d (updateNodeByIdList f cs nid)

def updateNodeByIdList (f : ContractSectionNode → ContractSectionNode) :
    List ContractSectionNode → String → List ContractSectionNode
  | [], _ => []
  | c :: cs, nid =>
    match getNodeById c nid with
    | some _ => updateNodeById f c nid :: cs
    | none => c :: updateNodeByIdList f cs nid

end

theorem updateNodeById_def (f : ContractSectionNode → ContractSectionNode)
    (n : ContractSectionNode) (nid : String) :
    updateNodeById f n nid =
      if n.id = nid then f n
      else .mk n.data (updateNodeByIdList f n.children nid) := by
  cases n with
  | mk d cs => rfl

/-- In-place assignment `node.markdown = m` on a looked-up node. -/
def setNodeMarkdown (m : List Char) (n : ContractSectionNode) : ContractSectionNode :=
  .mk { n.data with markdown := m } n.children

/-! ### Requests (`app/features/contract_annotations/schemas.py`) -/

structure NewCommentAnnotationRequest where
  node_id : String
  offset_beg : Int
  offset_end : Int
  anchor_text : List Char
  comment_text : List Char
  author : AnnotationAuthor
deriving Repr

structure EditCommentAnnotationRequest where
  annotation_id : Nat
  comment_text : List Char
deriving Repr

structure NewRevisionAnnotationRequest where
  node_id : String
  offset_beg : Int
  offset_end : Int
  old_text : List Char
  new_text : List Char
  author : AnnotationAuthor
deriving Repr

structure EditRevisionAnnotationRequest where
  annotation_id : Nat
  new_text : List Char
deriving Repr

structure SectionAddAnnotationRequest where
  target_parent_id : String
  insertion_index : Int
  new_node : ContractSectionNode
  author : AnnotationAuthor
deriving Repr

structure SectionRemoveAnnotationRequest where
  node_id : String
  author : AnnotationAuthor
deriving Repr

structure AnnotationResolutionRequest where
  annotation_id : Nat
  annotation_type : AnnotationType
  resolution : ContractAnnotationResolution
deriving Repr

/-! ### `validate_anchor_text` (`services.py`) -/

/-- Model of `validate_anchor_text(node, offset_beg, offset_end, expected_anchor)`:
compare the current node text at the offsets against the expected anchor and
fail with the anchor-mismatch `HTTPException` on a difference.  (The
`IndexError` branch of the source is unreachable: Python string slicing never
raises.) -/
def validateAnchorText (node : ContractSectionNode) (offset_beg offset_end : Int)
    (expected_anchor : List Char) : Except EngineError Unit :=
  let actual_anchor := pySlice node.markdown offset_beg offset_end
  if actual_anchor = expected_anchor then .ok ()
  else .error (.anchorMismatch node.id expected_anchor actual_anchor)

/-! ### Creation / edit handlers (`services.py`)

Each handler takes the fresh annotation id (`uuid4()`) and the current time
(`datetime.now`) as explicit parameters.  The handlers return the mutated
contract; response-DTO construction is pure shaping and is not modelled. -/

/-- Model of `handle_make_comment`. -/
def handle_make_comment (contract : Contract) (request : NewCommentAnnotationRequest)
    (newId : Nat) (now : Nat) : Except EngineError Contract :=
  match getNodeById contract.section_tree request.node_id with
  | none => .error (.nodeNotFound request.node_id)
  | some node =>
    if isBlank request.comment_text then .error .emptyText
    else match validateAnchorText node request.offset_beg request.offset_end request.anchor_text with
    | .error e => .error e
    | .ok _ =>
      let ann : CommentAnnotation :=
        { id := newId, node_id := request.node_id,
          offset_beg := request.offset_beg, offset_end := request.offset_end,
          anchor_text := request.anchor_text, comment_text := request.comment_text,
          author := request.author, status := .pending,
          created_at := now, resolved_at := none }
      .ok { contract with
              annotations := { contract.annotations with
                                comments := contract.annotations.comments ++ [ann] },
              version := contract.version + 1 }

/-- Model of `handle_edit_comment`.  If the annotation found by id is not a comment, the
Python code fails with an `AttributeError` before mutating anything; this is
modelled by the `wrongAnnotationKind` error. -/
def handle_edit_comment (contract : Contract) (request : EditCommentAnnotationRequest) :
    Except EngineError Contract :=
  if isBlank request.comment_text then .error .emptyText
  else match getAnnotationById contract.annotations request.annotation_id with
  | none => .error (.annotationNotFound request.annotation_id)
  | some (.comment a) =>
    (match getNodeById contract.section_tree a.node_id with
    | none => .error (.nodeNotFound a.node_id)
    | some node =>
      match validateAnchorText node a.offset_beg a.offset_end a.anchor_text with
      | .error e => .error e
      | .ok _ =>
        .ok { contract with
                annotations := { contract.annotations with
                  comments := updateFirstBy (fun x => x.id = a.id)
                    (fun x => { x with comment_text := request.comment_text })
                    contract.annotations.comments },
                version := contract.version + 1 })
  | some _ => .error (.wrongAnnotationKind request.annotation_id)

/-- Model of `handle_make_revision`. -/
def handle_make_revision (contract : Contract) (request : NewRevisionAnnotationRequest)
    (newId : Nat) (now : Nat) : Except EngineError Contract :=
  match getNodeById contract.section_tree request.node_id with
  | none => .error (.nodeNotFound request.node_id)
  | some node =>
    if isBlank request.old_text || isBlank request.new_text then .error .emptyText
    else match validateAnchorText node request.offset_beg request.offset_end request.old_text with
    | .error e => .error e
    | .ok _ =>
      let ann : RevisionAnnotation :=
        { id := newId, node_id := request.node_id,
          offset_beg := request.offset_beg, offset_end := request.offset_end,
          old_text := request.old_text, new_text := request.new_text,
          author := request.author, status := .pending,
          created_at := now, resolved_at := none }
      .ok { contract with
              annotations := { contract.annotations with
                                revisions := contract.annotations.revisions ++ [ann] },
              version := contract.version + 1 }

/-- Model of `handle_edit_revision`. -/
def handle_edit_revision (contract : Contract) (request : EditRevisionAnnotationRequest) :
    Except EngineError Contract :=
  if isBlank request.new_text then .error .emptyText
  else match getAnnotationById contract.annotations request.annotation_id with
  | none => .error (.annotationNotFound request.annotation_id)
  | some (.revision a) =>
    (match getNodeById contract.section_tree a.node_id with
    | none => .error (.nodeNotFound a.node_id)
    | some node =>
      match validateAnchorText node a.offset_beg a.offset_end a.old_text with
      | .error e => .error e
      | .ok _ =>
        .ok { contract with
                annotations := { contract.annotations with
                  revisions := updateFirstBy (fun x => x.id = a.id)
                    (fun x => { x with new_text := request.new_text })
                    contract.annotations.revisions },
                version := contract.version + 1 })
  | some _ => .error (.wrongAnnotationKind request.annotation_id)

/-- Model of `handle_section_add`. -/
def handle_section_add (contract : Contract) (request : SectionAddAnnotationRequest)
    (newId : Nat) (now : Nat) : Except EngineError Contract :=
  match getNodeById contract.section_tree request.target_parent_id with
  | none => .error (.nodeNotFound request.target_parent_id)
  | some parent_node =>
    if request.insertion_index < 0 || request.insertion_index > parent_node.children.length
    then .error (.insertionIndexOutOfRange request.insertion_index)
    else
      let ann : SectionAddAnnotation :=
        { id := newId, target_parent_id := request.target_parent_id,
          insertion_index := request.insertion_index, new_node := request.new_node,
          author := request.author, status := .pending,
          created_at := now, resolved_at := none }
      .ok { contract with
              annotations := { contract.annotations with
                                section_adds := contract.annotations.section_adds ++ [ann] },
              version := contract.version + 1 }

/-- Model of `handle_section_remove`. -/
def handle_section_remove (contract : Contract) (request : SectionRemoveAnnotationRequest)
    (newId : Nat) (now : Nat) : Except EngineError Contract :=
  match getNodeById contract.section_tree request.node_id with
  | none => .error (.nodeNotFound request.node_id)
  | some _ =>
    let ann : SectionRemoveAnnotation :=
      { id := newId, node_id := request.node_id,
        author := request.author, status := .pending,
        created_at := now, resolved_at := none }
    .ok { contract with
            annotations := { contract.annotations with
                              section_removes := contract.annotations.section_removes ++ [ann] },
            version := contract.version + 1 }

/-! ### Rebase (`rebase_annotations`, `services.py` 419-446)

The Python loop walks `annotations.comments + annotations.revisions`, keeping
those on the edited node other than the edit itself, and mutates each in
place; each mutation is independent, so it is a map over both lists. -/

/-- The per-annotation rebase step applied to a comment. -/
def rebaseComment (edit : RevisionAnnotation) (delta : Int) (now : Nat)
    (a : CommentAnnotation) : CommentAnnotation :=
  if a.node_id = edit.node_id && a.id != edit.id then
    if a.offset_end ≤ edit.offset_beg then a
    else if a.offset_beg ≥ edit.offset_end then
      { a with offset_beg := max 0 (a.offset_beg + delta),
               offset_end := max 0 (a.offset_end + delta) }
    else { a with status := .conflict, resolved_at := some now }
  else a

/-- The per-annotation rebase step applied to a revision. -/
def rebaseRevision (edit : RevisionAnnotation) (delta : Int) (now : Nat)
    (a : RevisionAnnotation) : RevisionAnnotation :=
  if a.node_id = edit.node_id && a.id != edit.id then
    if a.offset_end ≤ edit.offset_beg then a
    else if a.offset_beg ≥ edit.offset_end then
      { a with offset_beg := max 0 (a.offset_beg + delta),
               offset_end := max 0 (a.offset_end + delta) }
    else { a with status := .conflict, resolved_at := some now }
  else a

/-- Model of `rebase_annotations`: shift/conflict every comment and revision on the
edited node (other than the edit itself); section adds/removes untouched. -/
def rebaseStore (anns : ContractAnnotations) (edit : RevisionAnnotation)
    (delta : Int) (now : Nat) : ContractAnnotations :=
  { anns with
      comments := anns.comments.map (rebaseComment edit delta now),
      revisions := anns.revisions.map (rebaseRevision edit delta now) }

/-! ### Resolution handlers (`services.py`) -/

/-- Model of `handle_resolve_comment`: the comment is marked resolved (with
`resolved_at` set) and the version bumped, regardless of the requested
resolution value; the tree is untouched. -/
def handle_resolve_comment (contract : Contract) (a : CommentAnnotation)
    (now : Nat) : Contract :=
  { contract with
      annotations := { contract.annotations with
        comments := updateFirstBy (fun x => x.id = a.id)
          (fun x => { x with status := .resolved, resolved_at := some now })
          contract.annotations.comments },
      version := contract.version + 1 }

/-- Model of `handle_resolve_revision` (the resolution-specific part, after the shared
pending check of the API layer). -/
def handle_resolve_revision (contract : Contract) (a : RevisionAnnotation)
    (resolution : ContractAnnotationResolution) (now : Nat) :
    Except EngineError Contract :=
  match getNodeById contract.section_tree a.node_id with
  | none => .error (.nodeNotFound a.node_id)
  | some node =>
    match validateAnchorText node a.offset_beg a.offset_end a.old_text with
    | .error e => .error e
    | .ok _ =>
      match resolution with
      | .accepted =>
        let newMarkdown :=
          pyTake node.markdown a.offset_beg ++ a.new_text ++ pyDrop node.markdown a.offset_end
        let tree' := updateNodeById (setNodeMarkdown newMarkdown)
          contract.section_tree a.node_id
        let store1 := { contract.annotations with
          revisions := updateFirstBy (fun x => x.id = a.id)
            (fun x => { x with status := .accepted, resolved_at := some now })
            contract.annotations.revisions }
        let delta : Int := (a.new_text.length : Int) - (a.old_text.length : Int)
        let store2 := if delta ≠ 0 then rebaseStore store1 a delta now else store1
        .ok { contract with
                section_tree := tree', annotations := store2,
                version := contract.version + 1 }
      | .rejected =>
        .ok { contract with
                annotations := { contract.annotations with
                  revisions := updateFirstBy (fun x => x.id = a.id)
                    (fun x => { x with status := .rejected, resolved_at := some now })
                    contract.annotations.revisions },
                version := contract.version + 1 }
      | .resolved => .error (.invalidResolution .resolved)

/-- Model of `handle_resolve_section_add`. -/
def handle_resolve_section_add (contract : Contract) (a : SectionAddAnnotation)
    (resolution : ContractAnnotationResolution) (now : Nat) :
    Except EngineError Contract :=
  match getNodeById contract.section_tree a.target_parent_id with
  | none => .error (.nodeNotFound a.target_parent_id)
  | some parent_node =>
    if a.insertion_index < 0 || a.insertion_index > parent_node.children.length
    then .error (.insertionIndexOutOfRange a.insertion_index)
    else
      match resolution with
      | .accepted =>
        let new_node : ContractSectionNode :=
          .mk { a.new_node.data with parent_id := some parent_node.id } a.new_node.children
        let tree' := updateNodeById
          (fun p => .mk p.data (p.children.insertIdx a.insertion_index.toNat new_node))
          contract.section_tree a.target_parent_id
        .ok { contract with
                section_tree := tree',
                annotations := { contract.annotations with
                  section_adds := updateFirstBy (fun x => x.id = a.id)
                    (fun x => { x with status := .accepted, resolved_at := some now })
                    contract.annotations.section_adds },
                version := contract.version + 1 }
      | .rejected =>
        .ok { contract with
                annotations := { contract.annotations with
                  section_adds := updateFirstBy (fun x => x.id = a.id)
                    (fun x => { x with status := .rejected, resolved_at := some now })
                    contract.annotations.section_adds },
                version := contract.version + 1 }
      | .resolved => .error (.invalidResolution .resolved)

/-- In-place Python assignment `annotation.status = st; annotation.resolved_at
= now` on the object returned by `get_annotation_by_id` — the first annotation
of its runtime kind with its id, updated inside its own kind's list. -/
def markAnnotationStatus (ann : ContractAnnotation) (st : AnnotationStatus)
    (now : Nat) (anns : ContractAnnotations) : ContractAnnotations :=
  match ann with
  | .comment a =>
    { anns with
        comments := updateFirstBy (fun x => x.id = a.id)
          (fun x => { x with status := st, resolved_at := some now }) anns.comments }
  | .revision a =>
    { anns with
        revisions := updateFirstBy (fun x => x.id = a.id)
          (fun x => { x with status := st, resolved_at := some now }) anns.revisions }
  | .section_add a =>
    { anns with
        section_adds := updateFirstBy (fun x => x.id = a.id)
          (fun x => { x with status := st, resolved_at := some now }) anns.section_adds }
  | .section_remove a =>
    { anns with
        section_removes := updateFirstBy (fun x => x.id = a.id)
          (fun x => { x with status := st, resolved_at := some now }) anns.section_removes }

/-- Cascade of an accepted section removal (`remove_annotations`,
`services.py` 449-463): every comment/revision anchored to the removed node,
other than the resolved annotation itself (excluded by id), is marked stale
with `resolved_at` set.  The function only reads `remove_annotation.node_id`
and `.id`, so it is keyed by those two values. -/
def removeStore (anns : ContractAnnotations) (remove_id : Nat)
    (target_node_id : String) (now : Nat) : ContractAnnotations :=
  { anns with
      comments := anns.comments.map (fun a =>
        if a.node_id = target_node_id && a.id != remove_id then
          { a with status := .stale, resolved_at := some now }
        else a),
      revisions := anns.revisions.map (fun a =>
        if a.node_id = target_node_id && a.id != remove_id then
          { a with status := .stale, resolved_at := some now }
        else a) }

/-- Model of `handle_resolve_section_remove`.  The API layer dispatches on
`request.annotation_type` only, so the annotation passed in can be of ANY
runtime kind; the handler duck-types it, reading only `node_id`, `id`,
`status` and `resolved_at` — which comments, revisions and section removes
all carry (the response `ContractAnnotations(section_removes=[annotation])`
also validates for those kinds under `from_attributes`, so such a resolution
is committed).  A section-add annotation has no `node_id` and raises
`AttributeError` before any mutation.  The Python code treats a falsy
`parent_id` (`None` or `""`) as the root; the `get_node_by_id(parent_node_id)`
call in the accepted branch sits outside the `try`, so its `ValueError` would
propagate — modelled as `nodeNotFound`. -/
def handle_resolve_section_remove (contract : Contract) (ann : ContractAnnotation)
    (resolution : ContractAnnotationResolution) (now : Nat) :
    Except EngineError Contract :=
  match ann.nodeIdAttr with
  | none => .error (.wrongAnnotationKind ann.id)
  | some target_node_id =>
    match getNodeById contract.section_tree target_node_id with
    | none => .error (.nodeNotFound target_node_id)
    | some node =>
      match node.parent_id with
      | none => .error (.rootRemoval target_node_id)
      | some pid =>
        if pid = "" then .error (.rootRemoval target_node_id)
        else
          match resolution with
          | .accepted =>
            match getNodeById contract.section_tree pid with
            | none => .error (.nodeNotFound pid)
            | some parent_node =>
              if parent_node.children.any (fun c => nodeBEq c node) then
                let tree' := updateNodeById
                  (fun p => .mk p.data (removeFirstBy (fun c => nodeBEq c node) p.children))
                  contract.section_tree pid
                let store1 := markAnnotationStatus ann .accepted now contract.annotations
                .ok { contract with
                        section_tree := tree',
                        annotations := removeStore store1 ann.id target_node_id now,
                        version := contract.version + 1 }
              else .error (.notChildOfParent target_node_id pid)
          | .rejected =>
            .ok { contract with
                    annotations := markAnnotationStatus ann .rejected now contract.annotations,
                    version := contract.version + 1 }
          | .resolved => .error (.invalidResolution .resolved)

/-- Model of `resolve_contract_annotation` (`api.py` 69-109), minus HTTP/DB plumbing:
look the annotation up, require it to be `pending`, and dispatch on the
requested annotation type.  Dispatch follows the request's type only, as in
the source; the `section_remove` arm therefore receives the found annotation
whatever its runtime kind.  The remaining mismatched pairs all fail in Python
without persisting anything (see `wrongAnnotationKind`). -/
def resolveAnnotation (contract : Contract) (request : AnnotationResolutionRequest)
    (now : Nat) : Except EngineError Contract :=
  match getAnnotationById contract.annotations request.annotation_id with
  | none => .error (.annotationNotFound request.annotation_id)
  | some ann =>
    if ann.status ≠ AnnotationStatus.pending then
      .error (.notPending request.annotation_id ann.status)
    else
      match request.annotation_type, ann with
      | .comment, .comment a => .ok (handle_resolve_comment contract a now)
      | .revision, .revision a => handle_resolve_revision contract a request.resolution now
      | .section_add, .section_add a => handle_resolve_section_add contract a request.resolution now
      | .section_remove, a => handle_resolve_section_remove contract a request.resolution now
      | _, _ => .error (.wrongAnnotationKind request.annotation_id)

/-! ### `delete_contract_annotations` (`contract_agent/tools.py` 526-562) -/

/-- Remove the annotation with the given id (first match in the concatenation)
from its list; `none` when no annotation matches. -/
def deleteAnnotationById (anns : ContractAnnotations) (aid : Nat) :
    Option ContractAnnotations :=
  match getAnnotationById anns aid with
  | none => none
  | some (.comment _) =>
      some { anns with comments := removeFirstBy (fun x => x.id = aid) anns.comments }
  | some (.revision _) =>
      some { anns with revisions := removeFirstBy (fun x => x.id = aid) anns.revisions }
  | some (.section_add _) =>
      some { anns with section_adds := removeFirstBy (fun x => x.id = aid) anns.section_adds }
  | some (.section_remove _) =>
      some { anns with section_removes := removeFirstBy (fun x => x.id = aid) anns.section_removes }

/-- The loop of `delete_contract_annotations`: returns the final store, the
deleted ids and the not-found ids. -/
def deleteAnnotationsGo (anns : ContractAnnotations) :
    List Nat → ContractAnnotations × List Nat × List Nat
  | [] => (anns, [], [])
  | i :: is =>
    match deleteAnnotationById anns i with
    | some anns' =>
      let r := deleteAnnotationsGo anns' is
      (r.1, i :: r.2.1, r.2.2)
    | none =>
      let r := deleteAnnotationsGo anns is
      (r.1, r.2.1, i :: r.2.2)

/-- Model of `delete_contract_annotations`: delete each id in turn; the version is
bumped once iff at least one deletion occurred. -/
def deleteContractAnnotations (contract : Contract) (ids : List Nat) :
    Contract × List Nat × List Nat :=
  let r := deleteAnnotationsGo contract.annotations ids
  ({ contract with
       annotations := r.1,
       version := if r.2.1.isEmpty then contract.version else contract.version + 1 },
   r.2.1, r.2.2)

/-! ### `flatten_section_tree` (`contract_agent/services.py` 23-39) -/

/-- The recursion guard of the inner `dfs`:
`max_depth is None or current_depth < max_depth - 1`. -/
def dfsGuard (max_depth : Option Int) (current_depth : Int) : Bool :=
  match max_depth with
  | none => true
  | some m => current_depth < m - 1

mutual

def dfsFlatten (max_depth : Option Int) :
    ContractSectionNode → Int → List ContractSectionNode
  | .mk _ cs, current_depth => dfsFlattenList max_depth cs current_depth

def dfsFlattenList (max_depth : Option Int) :
    List ContractSectionNode → Int → List ContractSectionNode
  | [], _ => []
  | c :: cs, current_depth =>
    c :: ((if dfsGuard max_depth current_depth then dfsFlatten max_depth c (current_depth + 1) else [])
          ++ dfsFlattenList max_depth cs current_depth)

end

/-- Model of `flatten_section_tree(node, max_depth)`: the starting node itself (unless
its type is `root`) followed by `dfs(node, 0)`. -/
def flattenSectionTree (node : ContractSectionNode) (max_depth : Option Int) :
    List ContractSectionNode :=
  (if node.type ≠ ContractSectionType.root then [node] else [])
    ++ dfsFlatten max_depth node 0

/-! ### Helper lemmas: lists -/

theorem find?_updateFirstBy (p : α → Bool) (f : α → α)
    (hf : ∀ x, p (f x) = p x) :
    ∀ l : List α, (updateFirstBy p f l).find? p = (l.find? p).map f
  | [] => rfl
  | a :: as => by
    by_cases h : p a = true
    · simp [updateFirstBy, h, List.find?_cons, hf a]
    · simp [updateFirstBy, h, List.find?_cons,
        find?_updateFirstBy p f hf as]

theorem find?_none_updateFirstBy (p q : α → Bool) (f : α → α)
    (hf : ∀ x, q (f x) = q x) :
    ∀ l : List α, l.find? q = none → (updateFirstBy p f l).find? q = none
  | [] => fun _ => rfl
  | a :: as => by
    intro h
    have hq : q a = false := by
      cases hq : q a with
      | true => rw [List.find?_cons_of_pos as hq] at h; exact absurd h (by simp)
      | false => rfl
    rw [List.find?_cons_of_neg as (by simp [hq])] at h
    by_cases hp : p a = true
    · have : updateFirstBy p f (a :: as) = f a :: as := by simp [updateFirstBy, hp]
      rw [this, List.find?_cons_of_neg as (by simp [hf a, hq])]
      exact h
    · have : updateFirstBy p f (a :: as) = a :: updateFirstBy p f as := by
        simp [updateFirstBy, hp]
      rw [this, List.find?_cons_of_neg _ (by simp [hq])]
      exact find?_none_updateFirstBy p q f hf as h

theorem getElem?_updateFirstBy_of_neg (p : α → Bool) (f : α → α) :
    ∀ (l : List α) (i : Nat) (b : α), l[i]? = some b → p b = false →
      (updateFirstBy p f l)[i]? = some b
  | [], i, b => by intro h _; simp at h
  | a :: as, i, b => by
    intro h hb
    by_cases hp : p a = true
    · cases i with
      | zero =>
        simp at h
        rw [← h] at hb
        rw [hb] at hp
        exact absurd hp (by simp)
      | succ j => simpa [updateFirstBy, hp] using h
    · cases i with
      | zero => simpa [updateFirstBy, hp] using h
      | succ j =>
        simp at h
        simpa [updateFirstBy, hp] using
          getElem?_updateFirstBy_of_neg p f as j b h hb

theorem find?_map_of_pred_comm (p : β → Bool) (g : α → β) (q : α → Bool)
    (hg : ∀ x, p (g x) = q x) (l : List α) :
    (l.map g).find? p = (l.find? q).map g := by
  rw [List.find?_map]
  have : p ∘ g = q := funext hg
  rw [this]

/-! ### Helper lemmas: annotation store lookup -/

/-- The predicate scanned by `get_annotation_by_id`, at each annotation kind. -/
theorem getAnnotationById_eq_find? (anns : ContractAnnotations) (aid : Nat) :
    getAnnotationById anns aid =
      (((anns.comments.find? (fun x => decide (x.id = aid))).map ContractAnnotation.comment).or
        (((anns.revisions.find? (fun x => decide (x.id = aid))).map ContractAnnotation.revision).or
          (((anns.section_adds.find? (fun x => decide (x.id = aid))).map ContractAnnotation.section_add).or
            ((anns.section_removes.find? (fun x => decide (x.id = aid))).map ContractAnnotation.section_remove)))) := by
  unfold getAnnotationById ContractAnnotations.all
  rw [List.find?_append, List.find?_append, List.find?_append,
    List.find?_map, List.find?_map, List.find?_map, List.find?_map]
  simp only [Function.comp_def, ContractAnnotation.id, Option.or_assoc]

theorem getAnnotationById_comment_iff (anns : ContractAnnotations) (aid : Nat)
    (a : CommentAnnotation) :
    getAnnotationById anns aid = some (.comment a) ↔
      anns.comments.find? (fun x => decide (x.id = aid)) = some a := by
  rw [getAnnotationById_eq_find?]
  cases h1 : anns.comments.find? (fun x => decide (x.id = aid)) <;>
    cases h2 : anns.revisions.find? (fun x => decide (x.id = aid)) <;>
      cases h3 : anns.section_adds.find? (fun x => decide (x.id = aid)) <;>
        cases h4 : anns.section_removes.find? (fun x => decide (x.id = aid)) <;>
          simp

theorem getAnnotationById_revision_iff (anns : ContractAnnotations) (aid : Nat)
    (a : RevisionAnnotation) :
    getAnnotationById anns aid = some (.revision a) ↔
      (anns.comments.find? (fun x => decide (x.id = aid)) = none ∧
        anns.revisions.find? (fun x => decide (x.id = aid)) = some a) := by
  rw [getAnnotationById_eq_find?]
  cases h1 : anns.comments.find? (fun x => decide (x.id = aid)) <;>
    cases h2 : anns.revisions.find? (fun x => decide (x.id = aid)) <;>
      cases h3 : anns.section_adds.find? (fun x => decide (x.id = aid)) <;>
        cases h4 : anns.section_removes.find? (fun x => decide (x.id = aid)) <;>
          simp

theorem getAnnotationById_section_remove_iff (anns : ContractAnnotations) (aid : Nat)
    (a : SectionRemoveAnnotation) :
    getAnnotationById anns aid = some (.section_remove a) ↔
      (anns.comments.find? (fun x => decide (x.id = aid)) = none ∧
        anns.revisions.find? (fun x => decide (x.id = aid)) = none ∧
        anns.section_adds.find? (fun x => decide (x.id = aid)) = none ∧
        anns.section_removes.find? (fun x => decide (x.id = aid)) = some a) := by
  rw [getAnnotationById_eq_find?]
  cases h1 : anns.comments.find? (fun x => decide (x.id = aid)) <;>
    cases h2 : anns.revisions.find? (fun x => decide (x.id = aid)) <;>
      cases h3 : anns.section_adds.find? (fun x => decide (x.id = aid)) <;>
        cases h4 : anns.section_removes.find? (fun x => decide (x.id = aid)) <;>
          simp

/-! ### Helper lemmas: tree lookup and update -/

theorem getNodeById_mk (d : NodeData) (cs : List ContractSectionNode) (nid : String) :
    getNodeById (.mk d cs) nid =
      if d.id = nid then some (.mk d cs) else getNodeByIdList cs nid := rfl

theorem getNodeByIdList_cons (c : ContractSectionNode) (cs : List ContractSectionNode)
    (nid : String) :
    getNodeByIdList (c :: cs) nid =
      match getNodeById c nid with
      | some r => some r
      | none => getNodeByIdList cs nid := rfl

theorem updateNodeById_mk (f : ContractSectionNode → ContractSectionNode)
    (d : NodeData) (cs : List ContractSectionNode) (nid : String) :
    updateNodeById f (.mk d cs) nid =
      if d.id = nid then f (.mk d cs) else .mk d (updateNodeByIdList f cs nid) := rfl

theorem updateNodeByIdList_cons (f : ContractSectionNode → ContractSectionNode)
    (c : ContractSectionNode) (cs : List ContractSectionNode) (nid : String) :
    updateNodeByIdList f (c :: cs) nid =
      match getNodeById c nid with
      | some _ => updateNodeById f c nid :: cs
      | none => c :: updateNodeByIdList f cs nid := rfl

theorem getNodeById_self (n : ContractSectionNode) : getNodeById n n.id = some n := by
  cases n with
  | mk d cs =>
    have hid : (ContractSectionNode.mk d cs).id = d.id := rfl
    rw [getNodeById_mk, hid]
    exact if_pos rfl

-- Looking up the edited id after an in-place update of the node found by
-- `get_node_by_id` returns the updated node (for any update `f` preserving
-- the node's id).
mutual

theorem getNodeById_updateNodeById (f : ContractSectionNode → ContractSectionNode)
    (hf : ∀ n, (f n).id = n.id) :
    ∀ (n : ContractSectionNode) (nid : String),
      getNodeById (updateNodeById f n nid) nid = (getNodeById n nid).map f
  | .mk d cs, nid => by
    by_cases h : d.id = nid
    · rw [updateNodeById_mk, if_pos h, getNodeById_mk, if_pos h]
      have h2 : (f (.mk d cs)).id = nid := by rw [hf]; exact h
      rw [getNodeById_def, if_pos h2]
      rfl
    · rw [updateNodeById_mk, if_neg h, getNodeById_mk, if_neg h,
        getNodeById_mk, if_neg h]
      exact getNodeByIdList_updateNodeByIdList f hf cs nid

theorem getNodeByIdList_updateNodeByIdList (f : ContractSectionNode → ContractSectionNode)
    (hf : ∀ n, (f n).id = n.id) :
    ∀ (l : List ContractSectionNode) (nid : String),
      getNodeByIdList (updateNodeByIdList f l nid) nid = (getNodeByIdList l nid).map f
  | [], _ => rfl
  | c :: cs, nid => by
    cases hc : getNodeById c nid with
    | some r =>
      rw [updateNodeByIdList_cons, hc]
      rw [getNodeByIdList_cons, getNodeByIdList_cons, hc,
        getNodeById_updateNodeById f hf c nid, hc]
      rfl
    | none =>
      rw [updateNodeByIdList_cons, hc]
      rw [getNodeByIdList_cons, getNodeByIdList_cons, hc]
      exact getNodeByIdList_updateNodeByIdList f hf cs nid

end

-- An in-place `node.markdown` assignment changes no other node's markdown:
-- looking up any other id yields a node with the same markdown as before.
mutual

theorem markdown_getNodeById_update_other (m : List Char) (nid nid' : String)
    (hne : nid' ≠ nid) :
    ∀ (n : ContractSectionNode),
      (getNodeById (updateNodeById (setNodeMarkdown m) n nid) nid').map
          ContractSectionNode.markdown
        = (getNodeById n nid').map ContractSectionNode.markdown
  | .mk d cs => by
    by_cases h : d.id = nid
    · rw [updateNodeById_mk, if_pos h]
      have h' : ¬ d.id = nid' := fun hcon => hne (hcon ▸ h)
      rw [show setNodeMarkdown m (.mk d cs) = .mk { d with markdown := m } cs from rfl]
      rw [getNodeById_mk, getNodeById_mk]
      rw [if_neg h', if_neg h']
    · rw [updateNodeById_mk, if_neg h]
      by_cases h' : d.id = nid'
      · rw [getNodeById_mk, if_pos h', getNodeById_mk, if_pos h']
        rfl
      · rw [getNodeById_mk, if_neg h', getNodeById_mk, if_neg h']
        exact markdown_getNodeByIdList_update_other m nid nid' hne cs

theorem markdown_getNodeByIdList_update_other (m : List Char) (nid nid' : String)
    (hne : nid' ≠ nid) :
    ∀ (l : List ContractSectionNode),
      (getNodeByIdList (updateNodeByIdList (setNodeMarkdown m) l nid) nid').map
          ContractSectionNode.markdown
        = (getNodeByIdList l nid').map ContractSectionNode.markdown
  | [] => rfl
  | c :: cs => by
    cases hc : getNodeById c nid with
    | some r =>
      rw [updateNodeByIdList_cons, hc]
      have hhead := markdown_getNodeById_update_other m nid nid' hne c
      rw [getNodeByIdList_cons, getNodeByIdList_cons]
      cases hc' : getNodeById c nid' with
      | some v =>
        rw [hc'] at hhead
        cases hw : getNodeById (updateNodeById (setNodeMarkdown m) c nid) nid' with
        | some w =>
          rw [hw] at hhead
          simpa using hhead
        | none => rw [hw] at hhead; simp at hhead
      | none =>
        rw [hc'] at hhead
        cases hw : getNodeById (updateNodeById (setNodeMarkdown m) c nid) nid' with
        | some w => rw [hw] at hhead; simp at hhead
        | none => rfl
    | none =>
      rw [updateNodeByIdList_cons, hc]
      rw [getNodeByIdList_cons, getNodeByIdList_cons]
      cases hc' : getNodeById c nid' with
      | some v => rfl
      | none => exact markdown_getNodeByIdList_update_other m nid nid' hne cs

end

-- Every update used by the engine keeps the top node's scalar data except
-- (possibly) its markdown; in particular the tree keeps its root id/type.
theorem updateNodeById_root_fields (f : ContractSectionNode → ContractSectionNode)
    (hf : ∀ n, (f n).id = n.id ∧ (f n).type = n.type) (n : ContractSectionNode)
    (nid : String) :
    (updateNodeById f n nid).id = n.id ∧ (updateNodeById f n nid).type = n.type := by
  cases n with
  | mk d cs =>
    by_cases h : d.id = nid
    · rw [updateNodeById_mk, if_pos h]
      exact hf _
    · rw [updateNodeById_mk, if_neg h]
      exact ⟨rfl, rfl⟩

/-! ### Helper lemmas: dispatch of `resolveAnnotation` -/

theorem resolveAnnotation_comment_eq (c : Contract) (aid : Nat)
    (a : CommentAnnotation) (res : ContractAnnotationResolution) (now : Nat)
    (h : getAnnotationById c.annotations aid = some (.comment a))
    (hp : a.status = .pending) :
    resolveAnnotation c ⟨aid, .comment, res⟩ now =
      .ok (handle_resolve_comment c a now) := by
  unfold resolveAnnotation
  rw [h]
  simp [ ContractAnnotation.status, hp]

theorem resolveAnnotation_revision_eq (c : Contract) (aid : Nat)
    (a : RevisionAnnotation) (res : ContractAnnotationResolution) (now : Nat)
    (h : getAnnotationById c.annotations aid = some (.revision a))
    (hp : a.status = .pending) :
    resolveAnnotation c ⟨aid, .revision, res⟩ now =
      handle_resolve_revision c a res now := by
  unfold resolveAnnotation
  rw [h]
  simp [ ContractAnnotation.status, hp]

theorem resolveAnnotation_section_remove_eq (c : Contract) (aid : Nat)
    (a : SectionRemoveAnnotation) (res : ContractAnnotationResolution) (now : Nat)
    (h : getAnnotationById c.annotations aid = some (.section_remove a))
    (hp : a.status = .pending) :
    resolveAnnotation c ⟨aid, .section_remove, res⟩ now =
      handle_resolve_section_remove c (.section_remove a) res now := by
  unfold resolveAnnotation
  rw [h]
  simp [ ContractAnnotation.status, hp]

theorem handle_resolve_revision_rejected_eq (c : Contract) (a : RevisionAnnotation)
    (now : Nat) (node : ContractSectionNode)
    (hn : getNodeById c.section_tree a.node_id = some node)
    (hanchor : pySlice node.markdown a.offset_beg a.offset_end = a.old_text) :
    handle_resolve_revision c a .rejected now =
      .ok { c with
              annotations := { c.annotations with
                revisions := updateFirstBy (fun x => x.id = a.id)
                  (fun x => { x with status := AnnotationStatus.rejected,
                                     resolved_at := some now })
                  c.annotations.revisions },
              version := c.version + 1 } := by
  unfold handle_resolve_revision validateAnchorText
  rw [hn]
  simp [hanchor]

theorem handle_resolve_revision_accepted_eq (c : Contract) (a : RevisionAnnotation)
    (now : Nat) (node : ContractSectionNode)
    (hn : getNodeById c.section_tree a.node_id = some node)
    (hanchor : pySlice node.markdown a.offset_beg a.offset_end = a.old_text) :
    handle_resolve_revision c a .accepted now =
      .ok { c with
              section_tree := updateNodeById
                (setNodeMarkdown
                  (pyTake node.markdown a.offset_beg ++ a.new_text
                    ++ pyDrop node.markdown a.offset_end))
                c.section_tree a.node_id,
              annotations :=
                (if ((a.new_text.length : Int) - (a.old_text.length : Int)) ≠ 0 then
                  rebaseStore
                    { c.annotations with
                        revisions := updateFirstBy (fun x => x.id = a.id)
                          (fun x => { x with status := AnnotationStatus.accepted,
                                             resolved_at := some now })
                          c.annotations.revisions }
                    a ((a.new_text.length : Int) - (a.old_text.length : Int)) now
                else
                  { c.annotations with
                      revisions := updateFirstBy (fun x => x.id = a.id)
                        (fun x => { x with status := AnnotationStatus.accepted,
                                           resolved_at := some now })
                        c.annotations.revisions }),
              version := c.version + 1 } := by
  unfold handle_resolve_revision validateAnchorText
  rw [hn]
  simp [hanchor]

/-- The id of a found annotation equals the id it was looked up by. -/
theorem comment_find?_id (l : List CommentAnnotation) (aid : Nat) (a : CommentAnnotation)
    (h : l.find? (fun x => decide (x.id = aid)) = some a) : a.id = aid := by
  have := List.find?_some h
  simpa using this

theorem revision_find?_id (l : List RevisionAnnotation) (aid : Nat) (a : RevisionAnnotation)
    (h : l.find? (fun x => decide (x.id = aid)) = some a) : a.id = aid := by
  have := List.find?_some h
  simpa using this

theorem setNodeMarkdown_id (m : List Char) (n : ContractSectionNode) :
    (setNodeMarkdown m n).id = n.id := by
  cases n; rfl

theorem setNodeMarkdown_type (m : List Char) (n : ContractSectionNode) :
    (setNodeMarkdown m n).type = n.type := by
  cases n; rfl

theorem setNodeMarkdown_markdown (m : List Char) (n : ContractSectionNode) :
    (setNodeMarkdown m n).markdown = m := by
  cases n; rfl

theorem rebaseComment_id (e : RevisionAnnotation) (δ : Int) (t : Nat)
    (a : CommentAnnotation) : (rebaseComment e δ t a).id = a.id := by
  unfold rebaseComment
  split
  · split
    · rfl
    · split
      · rfl
      · rfl
  · rfl

theorem rebaseRevision_id (e : RevisionAnnotation) (δ : Int) (t : Nat)
    (a : RevisionAnnotation) : (rebaseRevision e δ t a).id = a.id := by
  unfold rebaseRevision
  split
  · split
    · rfl
    · split
      · rfl
      · rfl
  · rfl

/-- The accepted edit is excluded from its own rebase by the id filter. -/
theorem rebaseRevision_self (e : RevisionAnnotation) (δ : Int) (t : Nat)
    (x : RevisionAnnotation) (hx : x.id = e.id) : rebaseRevision e δ t x = x := by
  simp [rebaseRevision, hx]

/-! ## Concrete fixtures used by witnesses and counterexamples -/

/-- Shorthand for building node data. -/
def mkNodeData (i : String) (t : ContractSectionType) (lv : Int) (md : List Char)
    (p : Option String) : NodeData :=
  { id := i, type := t, level := lv, number := i, name := none, markdown := md,
    parent_id := p }

def exLeaf : ContractSectionNode :=
  .mk (mkNodeData "1" .body 1 "0123456789".toList (some "root")) []

def exTree : ContractSectionNode :=
  .mk (mkNodeData "root" .root 0 [] none) [exLeaf]

def exComment : CommentAnnotation :=
  { id := 3, node_id := "1", offset_beg := 0, offset_end := 2,
    anchor_text := "01".toList, comment_text := "hi".toList,
    author := .user, status := .pending, created_at := 0, resolved_at := none }

/-! ## Claims -/

/-- C4: for every annotation whose status is not `pending`, resolving it fails
with the engine's ConflictError (`notPending`, HTTP 400 `cannot be resolved!`),
raised before any handler runs; in the `Except` embedding no successor state is
produced, so tree, annotation store and version are unchanged. -/
theorem C4_resolution_requires_pending (c : Contract)
    (req : AnnotationResolutionRequest) (now : Nat) (ann : ContractAnnotation)
    (h : getAnnotationById c.annotations req.annotation_id = some ann)
    (hs : ann.status ≠ .pending) :
    resolveAnnotation c req now = .error (.notPending req.annotation_id ann.status) := by
  unfold resolveAnnotation
  simp [h, hs]

def c4Comment : CommentAnnotation := { exComment with status := .accepted }

def c4Contract : Contract :=
  { section_tree := exTree, annotations := { comments := [c4Comment] }, version := 5 }

/-- Witness for C4: resolving an already-accepted comment a second time fails. -/
theorem C4_witness :
    resolveAnnotation c4Contract ⟨3, .comment, .accepted⟩ 1 =
      .error (.notPending 3 .accepted) :=
  C4_resolution_requires_pending c4Contract ⟨3, .comment, .accepted⟩ 1
    (.comment c4Comment) (by rfl) (by decide)

def c2Contract : Contract :=
  { section_tree := exTree, annotations := { comments := [exComment] }, version := 1 }

/-- Counterexample to C2 as stated: resolving a pending comment with
`resolution = rejected` does NOT set its status to `rejected` —
`handle_resolve_comment` never branches on the resolution value and marks the
comment `resolved` (with `resolved_at` set) in every case. -/
theorem C2_counterexample :
    resolveAnnotation c2Contract ⟨3, .comment, .rejected⟩ 9 =
      .ok { c2Contract with
              annotations := { comments :=
                [{ exComment with status := .resolved, resolved_at := some 9 }] },
              version := 2 } ∧
    AnnotationStatus.resolved ≠ AnnotationStatus.rejected :=
  ⟨rfl, by decide⟩

/-- C2 (amended): resolving a pending comment with `resolution = accepted` sets
its status to `resolved` with `resolved_at` set and changes no node text — and
the same happens for `resolution = rejected` (and any other resolution value):
comment resolution ignores the requested resolution entirely. -/
theorem C2_comment_resolution (c : Contract) (aid now : Nat)
    (a : CommentAnnotation) (res : ContractAnnotationResolution)
    (h : getAnnotationById c.annotations aid = some (.comment a))
    (hp : a.status = .pending) :
    ∃ c', resolveAnnotation c ⟨aid, .comment, res⟩ now = .ok c' ∧
      c'.section_tree = c.section_tree ∧
      getAnnotationById c'.annotations aid =
        some (.comment { a with status := .resolved, resolved_at := some now }) ∧
      c'.version = c.version + 1 := by
  have hfind := (getAnnotationById_comment_iff c.annotations aid a).mp h
  have ha : a.id = aid := comment_find?_id _ _ _ hfind
  subst ha
  refine ⟨handle_resolve_comment c a now,
    resolveAnnotation_comment_eq c a.id a res now h hp, rfl, ?_, rfl⟩
  apply (getAnnotationById_comment_iff _ _ _).mpr
  show (updateFirstBy (fun x => decide (x.id = a.id)) _ c.annotations.comments).find? _ = _
  rw [find?_updateFirstBy _ _ (fun x => by simp), hfind]
  rfl

/-- Witness for C2 (amended): accepting a pending comment resolves it. -/
theorem C2_witness :
    ∃ c', resolveAnnotation c2Contract ⟨3, .comment, .accepted⟩ 9 = .ok c' ∧
      c'.section_tree = c2Contract.section_tree ∧
      getAnnotationById c'.annotations 3 =
        some (.comment { exComment with status := .resolved, resolved_at := some 9 }) ∧
      c'.version = c2Contract.version + 1 :=
  C2_comment_resolution c2Contract 3 9 exComment .accepted (by rfl) (by rfl)

def c3Revision : RevisionAnnotation :=
  { id := 4, node_id := "1", offset_beg := 2, offset_end := 4,
    old_text := "XX".toList, new_text := "YY".toList,
    author := .user, status := .pending, created_at := 0, resolved_at := none }

def c3Contract : Contract :=
  { section_tree := exTree, annotations := { revisions := [c3Revision] }, version := 1 }

/-- Counterexample to C3 as stated: a pending revision whose stored `old_text`
(`"XX"`) no longer matches the node text at its offsets (`"23"`) cannot be
rejected — `handle_resolve_revision` re-validates the anchor before branching
on the resolution, so the rejection fails with the anchor-mismatch error
instead of succeeding. -/
theorem C3_counterexample :
    resolveAnnotation c3Contract ⟨4, .revision, .rejected⟩ 2 =
      .error (.anchorMismatch "1" "XX".toList "23".toList) := rfl

/-- C3 (amended): for every pending revision annotation whose stored `old_text`
still matches the target node's current markdown at the stored offsets,
resolving it with `resolution = rejected` succeeds, sets its status to
`rejected` (with `resolved_at` set), and performs no other mutation: the
node's markdown, the section tree, and all other annotations are unchanged.
(When the anchor has drifted, the rejection instead fails with an
anchor-mismatch error and mutates nothing — see the counterexample.) -/
theorem C3_revision_rejection (c : Contract) (aid now : Nat)
    (a : RevisionAnnotation) (node : ContractSectionNode)
    (h : getAnnotationById c.annotations aid = some (.revision a))
    (hp : a.status = .pending)
    (hn : getNodeById c.section_tree a.node_id = some node)
    (hanchor : pySlice node.markdown a.offset_beg a.offset_end = a.old_text) :
    ∃ c', resolveAnnotation c ⟨aid, .revision, .rejected⟩ now = .ok c' ∧
      c'.section_tree = c.section_tree ∧
      c'.annotations.comments = c.annotations.comments ∧
      c'.annotations.section_adds = c.annotations.section_adds ∧
      c'.annotations.section_removes = c.annotations.section_removes ∧
      getAnnotationById c'.annotations aid =
        some (.revision { a with status := .rejected, resolved_at := some now }) ∧
      (∀ (i : Nat) (b : RevisionAnnotation), c.annotations.revisions[i]? = some b →
        b.id ≠ aid → c'.annotations.revisions[i]? = some b) := by
  have hdec := (getAnnotationById_revision_iff c.annotations aid a).mp h
  have ha : a.id = aid := revision_find?_id _ _ _ hdec.2
  subst ha
  refine ⟨_, (resolveAnnotation_revision_eq c a.id a .rejected now h hp).trans
      (handle_resolve_revision_rejected_eq c a now node hn hanchor),
    rfl, rfl, rfl, rfl, ?_, ?_⟩
  · apply (getAnnotationById_revision_iff _ _ _).mpr
    refine ⟨hdec.1, ?_⟩
    show (updateFirstBy (fun x => decide (x.id = a.id)) _ c.annotations.revisions).find? _ = _
    rw [find?_updateFirstBy _ _ (fun x => by simp), hdec.2]
    rfl
  · intro i b hb hbid
    exact getElem?_updateFirstBy_of_neg _ _ c.annotations.revisions i b hb (by simp [hbid])

def c3GoodRevision : RevisionAnnotation :=
  { id := 5, node_id := "1", offset_beg := 2, offset_end := 4,
    old_text := "23".toList, new_text := "YY".toList,
    author := .user, status := .pending, created_at := 0, resolved_at := none }

def c3GoodContract : Contract :=
  { section_tree := exTree, annotations := { revisions := [c3GoodRevision] }, version := 1 }

/-- Witness for C3 (amended): rejecting a pending revision with a matching
anchor succeeds and only marks the revision rejected. -/
theorem C3_witness :
    ∃ c', resolveAnnotation c3GoodContract ⟨5, .revision, .rejected⟩ 2 = .ok c' ∧
      c'.section_tree = c3GoodContract.section_tree ∧
      getAnnotationById c'.annotations 5 =
        some (.revision { c3GoodRevision with status := .rejected, resolved_at := some 2 }) := by
  obtain ⟨c', h1, h2, _, _, _, h6, _⟩ :=
    C3_revision_rejection c3GoodContract 5 2 c3GoodRevision exLeaf
      (by rfl) (by rfl) (by rfl) (by rfl)
  exact ⟨c', h1, h2, h6⟩

/-- C5: for every pending revision annotation whose stored `old_text` equals
the target node's current `markdown[offset_beg:offset_end]`, resolving it with
`resolution = accepted` sets that node's markdown to
`markdown[:offset_beg] + new_text + markdown[offset_end:]`, sets the
annotation's status to `accepted` with `resolved_at` set, bumps the version,
and changes no other node's markdown. -/
theorem C5_accepted_revision_splice (c : Contract) (aid now : Nat)
    (a : RevisionAnnotation) (node : ContractSectionNode)
    (h : getAnnotationById c.annotations aid = some (.revision a))
    (hp : a.status = .pending)
    (hn : getNodeById c.section_tree a.node_id = some node)
    (hanchor : pySlice node.markdown a.offset_beg a.offset_end = a.old_text) :
    ∃ c', resolveAnnotation c ⟨aid, .revision, .accepted⟩ now = .ok c' ∧
      (getNodeById c'.section_tree a.node_id).map ContractSectionNode.markdown =
        some (pyTake node.markdown a.offset_beg ++ a.new_text
          ++ pyDrop node.markdown a.offset_end) ∧
      getAnnotationById c'.annotations aid =
        some (.revision { a with status := .accepted, resolved_at := some now }) ∧
      c'.version = c.version + 1 ∧
      (∀ nid, nid ≠ a.node_id →
        (getNodeById c'.section_tree nid).map ContractSectionNode.markdown =
          (getNodeById c.section_tree nid).map ContractSectionNode.markdown) := by
  have hdec := (getAnnotationById_revision_iff c.annotations aid a).mp h
  have ha : a.id = aid := revision_find?_id _ _ _ hdec.2
  subst ha
  refine ⟨_, (resolveAnnotation_revision_eq c a.id a .accepted now h hp).trans
      (handle_resolve_revision_accepted_eq c a now node hn hanchor), ?_, ?_, rfl, ?_⟩
  · dsimp only
    rw [getNodeById_updateNodeById _ (setNodeMarkdown_id _) c.section_tree a.node_id, hn]
    simp [setNodeMarkdown_markdown]
  · dsimp only
    by_cases hδ : ((a.new_text.length : Int) - (a.old_text.length : Int)) ≠ 0
    · rw [if_pos hδ]
      apply (getAnnotationById_revision_iff _ _ _).mpr
      constructor
      · show (c.annotations.comments.map _).find? _ = none
        rw [find?_map_of_pred_comm _ _ (fun x => decide (x.id = a.id))
          (fun x => by simp [rebaseComment_id]), hdec.1]
        rfl
      · show ((updateFirstBy _ _ c.annotations.revisions).map _).find? _ = _
        rw [find?_map_of_pred_comm _ _ (fun x => decide (x.id = a.id))
          (fun x => by simp [rebaseRevision_id])]
        rw [find?_updateFirstBy _ _ (fun x => by simp), hdec.2]
        simp only [Option.map_map, Option.map_some', Function.comp_apply]
        exact congrArg some (rebaseRevision_self _ _ _ _ rfl)
    · rw [if_neg hδ]
      apply (getAnnotationById_revision_iff _ _ _).mpr
      refine ⟨hdec.1, ?_⟩
      rw [find?_updateFirstBy _ _ (fun x => by simp), hdec.2]
      rfl
  · intro nid hnid
    dsimp only
    exact markdown_getNodeById_update_other _ a.node_id nid hnid c.section_tree

def c5Revision : RevisionAnnotation :=
  { id := 6, node_id := "1", offset_beg := 2, offset_end := 4,
    old_text := "23".toList, new_text := "abcde".toList,
    author := .user, status := .pending, created_at := 0, resolved_at := none }

def c5Contract : Contract :=
  { section_tree := exTree, annotations := { revisions := [c5Revision] }, version := 1 }

/-- Witness for C5: accepting the revision `[2,4) "23" → "abcde"` on node
`"1"` (markdown `"0123456789"`) splices the node text and accepts the
annotation. -/
theorem C5_witness :
    ∃ c', resolveAnnotation c5Contract ⟨6, .revision, .accepted⟩ 4 = .ok c' ∧
      (getNodeById c'.section_tree "1").map ContractSectionNode.markdown =
        some "01abcde456789".toList ∧
      getAnnotationById c'.annotations 6 =
        some (.revision { c5Revision with status := .accepted, resolved_at := some 4 }) := by
  obtain ⟨c', h1, h2, h3, _, _⟩ :=
    C5_accepted_revision_splice c5Contract 6 4 c5Revision exLeaf
      (by rfl) (by rfl) (by rfl) (by rfl)
  exact ⟨c', h1, h2, h3⟩

def c1EditRevision : RevisionAnnotation :=
  { id := 1, node_id := "1", offset_beg := 2, offset_end := 4,
    old_text := "23".toList, new_text := "abcde".toList,
    author := .user, status := .pending, created_at := 0, resolved_at := none }

def c1RejectedComment : CommentAnnotation :=
  { id := 2, node_id := "1", offset_beg := 6, offset_end := 8,
    anchor_text := "67".toList, comment_text := "x".toList,
    author := .user, status := .rejected, created_at := 0, resolved_at := some 1 }

def c1ContractA : Contract :=
  { section_tree := exTree,
    annotations := { comments := [c1RejectedComment], revisions := [c1EditRevision] },
    version := 1 }

def c1ZeroDeltaRevision : RevisionAnnotation :=
  { id := 1, node_id := "1", offset_beg := 2, offset_end := 4,
    old_text := "23".toList, new_text := "xy".toList,
    author := .user, status := .pending, created_at := 0, resolved_at := none }

def c1OverlapComment : CommentAnnotation :=
  { id := 3, node_id := "1", offset_beg := 3, offset_end := 5,
    anchor_text := "34".toList, comment_text := "y".toList,
    author := .user, status := .pending, created_at := 0, resolved_at := none }

def c1ContractB : Contract :=
  { section_tree := exTree,
    annotations := { comments := [c1OverlapComment], revisions := [c1ZeroDeltaRevision] },
    version := 1 }

/-- Counterexample to C1 as stated, in two parts.  First: the rebase is not
restricted to pending annotations — accepting the revision `[2,4) → +3` also
shifts the offsets of an already-rejected comment at `[6,8)` to `[9,11)`,
contradicting "annotations whose status is not pending are untouched".
Second: `handle_resolve_revision` only calls `rebase_annotations` when
`delta != 0`, so accepting a same-length revision `[2,4) "23" → "xy"` leaves
an overlapping pending comment at `[3,5)` `pending` instead of marking it
`conflict`. -/
theorem C1_counterexample :
    (match resolveAnnotation c1ContractA ⟨1, .revision, .accepted⟩ 7 with
     | .ok c' => c'.annotations.comments.map (fun b => (b.offset_beg, b.offset_end, b.status))
     | .error _ => []) = [(9, 11, AnnotationStatus.rejected)] ∧
    (match resolveAnnotation c1ContractB ⟨1, .revision, .accepted⟩ 7 with
     | .ok c' => c'.annotations.comments.map (fun b => b.status)
     | .error _ => []) = [AnnotationStatus.pending] :=
  ⟨rfl, rfl⟩

/-- C1 (amended): when a pending revision R on node n is accepted, with
`delta = len(new_text) - len(old_text)`: if `delta = 0` no rebase happens at
all (every other comment and revision is left untouched, even one overlapping
R's range); if `delta ≠ 0`, then for every other comment or revision A on node
n — of ANY status, not only pending — A is untouched if
`A.offset_end <= R.offset_beg`; A's offsets are shifted by delta (each floored
at 0, status untouched, so a pending A remains pending) if
`A.offset_beg >= R.offset_end`; and otherwise A's status becomes `conflict`
with `resolved_at` set and offsets unchanged.  Annotations on other nodes, and
all section add/remove annotations, are untouched. -/
theorem C1_rebase_after_accept (c : Contract) (aid now : Nat)
    (a : RevisionAnnotation) (node : ContractSectionNode)
    (h : getAnnotationById c.annotations aid = some (.revision a))
    (hp : a.status = .pending)
    (hn : getNodeById c.section_tree a.node_id = some node)
    (hanchor : pySlice node.markdown a.offset_beg a.offset_end = a.old_text) :
    ∃ c', resolveAnnotation c ⟨aid, .revision, .accepted⟩ now = .ok c' ∧
      c'.annotations.section_adds = c.annotations.section_adds ∧
      c'.annotations.section_removes = c.annotations.section_removes ∧
      (((a.new_text.length : Int) - (a.old_text.length : Int)) = 0 →
        c'.annotations.comments = c.annotations.comments ∧
        (∀ (i : Nat) (b : RevisionAnnotation), c.annotations.revisions[i]? = some b →
          b.id ≠ aid → c'.annotations.revisions[i]? = some b)) ∧
      (((a.new_text.length : Int) - (a.old_text.length : Int)) ≠ 0 →
        (∀ (i : Nat) (b : CommentAnnotation), c.annotations.comments[i]? = some b →
          (b.node_id ≠ a.node_id → c'.annotations.comments[i]? = some b) ∧
          (b.node_id = a.node_id → b.id ≠ aid →
            (b.offset_end ≤ a.offset_beg → c'.annotations.comments[i]? = some b) ∧
            (¬ b.offset_end ≤ a.offset_beg → b.offset_beg ≥ a.offset_end →
              c'.annotations.comments[i]? = some
                { b with
                    offset_beg := max 0 (b.offset_beg
                      + ((a.new_text.length : Int) - (a.old_text.length : Int))),
                    offset_end := max 0 (b.offset_end
                      + ((a.new_text.length : Int) - (a.old_text.length : Int))) }) ∧
            (¬ b.offset_end ≤ a.offset_beg → ¬ b.offset_beg ≥ a.offset_end →
              c'.annotations.comments[i]? = some
                { b with status := .conflict, resolved_at := some now }))) ∧
        (∀ (i : Nat) (b : RevisionAnnotation), c.annotations.revisions[i]? = some b →
          b.id ≠ aid →
          (b.node_id ≠ a.node_id → c'.annotations.revisions[i]? = some b) ∧
          (b.node_id = a.node_id →
            (b.offset_end ≤ a.offset_beg → c'.annotations.revisions[i]? = some b) ∧
            (¬ b.offset_end ≤ a.offset_beg → b.offset_beg ≥ a.offset_end →
              c'.annotations.revisions[i]? = some
                { b with
                    offset_beg := max 0 (b.offset_beg
                      + ((a.new_text.length : Int) - (a.old_text.length : Int))),
                    offset_end := max 0 (b.offset_end
                      + ((a.new_text.length : Int) - (a.old_text.length : Int))) }) ∧
            (¬ b.offset_end ≤ a.offset_beg → ¬ b.offset_beg ≥ a.offset_end →
              c'.annotations.revisions[i]? = some
                { b with status := .conflict, resolved_at := some now })))) := by
  have hdec := (getAnnotationById_revision_iff c.annotations aid a).mp h
  have ha : a.id = aid := revision_find?_id _ _ _ hdec.2
  subst ha
  refine ⟨_, (resolveAnnotation_revision_eq c a.id a .accepted now h hp).trans
      (handle_resolve_revision_accepted_eq c a now node hn hanchor),
    ?_, ?_, ?_, ?_⟩
  · dsimp only
    split <;> rfl
  · dsimp only
    split <;> rfl
  · intro hδ0
    dsimp only
    rw [if_neg (by simp [hδ0])]
    refine ⟨rfl, ?_⟩
    intro i b hb hbid
    exact getElem?_updateFirstBy_of_neg _ _ c.annotations.revisions i b hb (by simp [hbid])
  · intro hδ
    dsimp only
    rw [if_pos hδ]
    constructor
    · intro i b hb
      have hb' : (rebaseStore
          { c.annotations with
              revisions := updateFirstBy (fun x => x.id = a.id)
                (fun x => { x with status := AnnotationStatus.accepted,
                                   resolved_at := some now })
                c.annotations.revisions }
          a ((a.new_text.length : Int) - (a.old_text.length : Int)) now).comments[i]? =
          some (rebaseComment a ((a.new_text.length : Int) - (a.old_text.length : Int)) now b) := by
        show (c.annotations.comments.map _)[i]? = _
        rw [List.getElem?_map, hb]
        rfl
      rw [hb']
      refine ⟨?_, ?_⟩
      · intro hnd
        simp [rebaseComment, hnd]
      · intro hnd hbid
        refine ⟨?_, ?_, ?_⟩
        · intro hle
          simp [rebaseComment, hnd, hbid, hle]
        · intro hnle hge
          simp [rebaseComment, hnd, hbid, hnle, hge]
        · intro hnle hnge
          simp [rebaseComment, hnd, hbid, hnle, hnge]
    · intro i b hb hbid
      have hstep := getElem?_updateFirstBy_of_neg
        (fun x => decide (x.id = a.id))
        (fun x => { x with status := AnnotationStatus.accepted, resolved_at := some now })
        c.annotations.revisions i b hb (by simp [hbid])
      have hb' : (rebaseStore
          { c.annotations with
              revisions := updateFirstBy (fun x => x.id = a.id)
                (fun x => { x with status := AnnotationStatus.accepted,
                                   resolved_at := some now })
                c.annotations.revisions }
          a ((a.new_text.length : Int) - (a.old_text.length : Int)) now).revisions[i]? =
          some (rebaseRevision a ((a.new_text.length : Int) - (a.old_text.length : Int)) now b) := by
        show ((updateFirstBy _ _ c.annotations.revisions).map _)[i]? = _
        rw [List.getElem?_map, hstep]
        rfl
      rw [hb']
      refine ⟨?_, ?_⟩
      · intro hnd
        simp [rebaseRevision, hnd]
      · intro hnd
        refine ⟨?_, ?_, ?_⟩
        · intro hle
          simp [rebaseRevision, hnd, hbid, hle]
        · intro hnle hge
          simp [rebaseRevision, hnd, hbid, hnle, hge]
        · intro hnle hnge
          simp [rebaseRevision, hnd, hbid, hnle, hnge]

def c1ShiftComment : CommentAnnotation :=
  { id := 2, node_id := "1", offset_beg := 6, offset_end := 8,
    anchor_text := "67".toList, comment_text := "x".toList,
    author := .user, status := .pending, created_at := 0, resolved_at := none }

def c1WitnessContract : Contract :=
  { section_tree := exTree,
    annotations := { comments := [c1ShiftComment, c1OverlapComment],
                     revisions := [c1EditRevision] },
    version := 1 }

/-- Witness for C1 (amended): accepting `[2,4) "23" → "abcde"` (delta `+3`)
shifts the pending comment at `[6,8)` to `[9,11)` and marks the overlapping
pending comment at `[3,5)` conflicted. -/
theorem C1_witness :
    ∃ c', resolveAnnotation c1WitnessContract ⟨1, .revision, .accepted⟩ 7 = .ok c' ∧
      c'.annotations.comments[0]? =
        some { c1ShiftComment with offset_beg := 9, offset_end := 11 } ∧
      c'.annotations.comments[1]? =
        some { c1OverlapComment with status := .conflict, resolved_at := some 7 } := by
  obtain ⟨c', hok, _, _, _, hδ⟩ :=
    C1_rebase_after_accept c1WitnessContract 1 7 c1EditRevision exLeaf
      (by rfl) (by rfl) (by rfl) (by rfl)
  obtain ⟨hcom, _⟩ := hδ (by decide)
  have h0 := ((hcom 0 c1ShiftComment (by rfl)).2 (by rfl) (by decide)).2.1
    (by decide) (by decide)
  have h1 := ((hcom 1 c1OverlapComment (by rfl)).2 (by rfl) (by decide)).2.2
    (by decide) (by decide)
  exact ⟨c', hok, h0.trans (by decide), h1⟩

def c6Contract : Contract :=
  { section_tree := exTree, annotations := {}, version := 1 }

def c6BlankReq : NewCommentAnnotationRequest :=
  { node_id := "1", offset_beg := 0, offset_end := 2,
    anchor_text := "XX".toList, comment_text := " ".toList, author := .user }

/-- Counterexample to C6 as stated: a `create_comment` request whose
`anchor_text` (`"XX"`) differs from the node text at the offsets (`"01"`) but
whose `comment_text` is blank fails with the empty-text `HTTPException`
(`"comment text is required"`), which is raised before the anchor check and
does not report the actual vs. expected text.  (It is still a
ValidationError-class failure and no annotation is appended.) -/
theorem C6_counterexample :
    handle_make_comment c6Contract c6BlankReq 9 0 = .error .emptyText ∧
    EngineError.emptyText ≠
      .anchorMismatch "1" "XX".toList (pySlice exLeaf.markdown 0 2) :=
  ⟨rfl, by decide⟩

/-- C6 (amended): for every node and every `create_comment`/`create_revision`
request whose `anchor_text` (resp. `old_text`) differs from
`node.markdown[offset_beg:offset_end]`, the call fails with a ValidationError
and no annotation is appended (in this embedding an `.error` result leaves the
aggregate untouched); when the request's text fields are non-blank (so the
earlier empty-text check passes), the error is precisely the anchor-mismatch
error reporting the expected and actual text. -/
theorem C6_creation_anchor_invariant :
    (∀ (c : Contract) (creq : NewCommentAnnotationRequest)
        (node : ContractSectionNode) (newId now : Nat),
      getNodeById c.section_tree creq.node_id = some node →
      pySlice node.markdown creq.offset_beg creq.offset_end ≠ creq.anchor_text →
      (∃ e, handle_make_comment c creq newId now = .error e) ∧
      (isBlank creq.comment_text = false →
        handle_make_comment c creq newId now =
          .error (.anchorMismatch node.id creq.anchor_text
            (pySlice node.markdown creq.offset_beg creq.offset_end)))) ∧
    (∀ (c : Contract) (rreq : NewRevisionAnnotationRequest)
        (node : ContractSectionNode) (newId now : Nat),
      getNodeById c.section_tree rreq.node_id = some node →
      pySlice node.markdown rreq.offset_beg rreq.offset_end ≠ rreq.old_text →
      (∃ e, handle_make_revision c rreq newId now = .error e) ∧
      (isBlank rreq.old_text = false → isBlank rreq.new_text = false →
        handle_make_revision c rreq newId now =
          .error (.anchorMismatch node.id rreq.old_text
            (pySlice node.markdown rreq.offset_beg rreq.offset_end)))) := by
  constructor
  · intro c creq node newId now hn hanchor
    by_cases hb : isBlank creq.comment_text = true
    · refine ⟨⟨.emptyText, ?_⟩, ?_⟩
      · unfold handle_make_comment
        rw [hn]
        simp [hb]
      · intro hfalse
        rw [hb] at hfalse
        cases hfalse
    · rw [Bool.not_eq_true] at hb
      have key : handle_make_comment c creq newId now =
          .error (.anchorMismatch node.id creq.anchor_text
            (pySlice node.markdown creq.offset_beg creq.offset_end)) := by
        unfold handle_make_comment validateAnchorText
        rw [hn]
        simp [hb, hanchor]
      exact ⟨⟨_, key⟩, fun _ => key⟩
  · intro c rreq node newId now hn hanchor
    by_cases hb : (isBlank rreq.old_text || isBlank rreq.new_text) = true
    · refine ⟨⟨.emptyText, ?_⟩, ?_⟩
      · unfold handle_make_revision
        rw [hn]
        simp [hb]
      · intro ho hnw
        rw [ho, hnw] at hb
        cases hb
    · rw [Bool.not_eq_true] at hb
      have key : handle_make_revision c rreq newId now =
          .error (.anchorMismatch node.id rreq.old_text
            (pySlice node.markdown rreq.offset_beg rreq.offset_end)) := by
        unfold handle_make_revision validateAnchorText
        rw [hn]
        simp at hb
        simp [hb.1, hb.2, hanchor]
      exact ⟨⟨_, key⟩, fun _ _ => key⟩

def c8Leaf : ContractSectionNode :=
  .mk (mkNodeData "1" .body 1 "Payment terms are net 30 days.".toList (some "root")) []

def c8Tree : ContractSectionNode :=
  .mk (mkNodeData "root" .root 0 [] none) [c8Leaf]

def c8Contract : Contract :=
  { section_tree := c8Tree, annotations := {}, version := 1 }

def c8SpecReq : NewRevisionAnnotationRequest :=
  { node_id := "1", offset_beg := 21, offset_end := 32,
    old_text := "net 30 days".toList, new_text := "net 60 days".toList,
    author := .user }

def c8FixedReq : NewRevisionAnnotationRequest :=
  { node_id := "1", offset_beg := 18, offset_end := 29,
    old_text := "net 30 days".toList, new_text := "net 60 days".toList,
    author := .user }

/-- Counterexample to C8 as stated: in
`"Payment terms are net 30 days."` the substring `"net 30 days"` occupies
offsets `[18,29)`, not `[21,32)` — `markdown[21:32]` is `" 30 days."` — so the
`create_revision` call of the scenario fails the anchor check instead of
succeeding. -/
theorem C8_counterexample :
    handle_make_revision c8Contract c8SpecReq 1 0 =
      .error (.anchorMismatch "1" "net 30 days".toList " 30 days.".toList) := rfl

/-- C8 (amended): with the offsets corrected to `[18,29)` (where
`"net 30 days"` actually sits), `create_revision` succeeds and resolving the
created revision with `resolution = accepted` yields
`"Payment terms are net 60 days."` with exactly two version bumps in total
(`1 → 3`). -/
theorem C8_end_to_end :
    ((handle_make_revision c8Contract c8FixedReq 1 0).bind
        (fun c1 => resolveAnnotation c1 ⟨1, .revision, .accepted⟩ 0)).map
        (fun c2 => ((getNodeById c2.section_tree "1").map ContractSectionNode.markdown,
          c2.version))
      = .ok (some "Payment terms are net 60 days.".toList, 3) ∧
    c8Contract.version = 1 :=
  ⟨rfl, rfl⟩

def c6GoodReq : NewCommentAnnotationRequest :=
  { node_id := "1", offset_beg := 0, offset_end := 2,
    anchor_text := "XX".toList, comment_text := "hello".toList, author := .user }

/-- Witness for C6 (amended): a non-blank comment request with a drifted
anchor fails with the anchor-mismatch error reporting expected vs. actual. -/
theorem C6_witness :
    handle_make_comment c6Contract c6GoodReq 9 0 =
      .error (.anchorMismatch "1" "XX".toList "01".toList) := by
  have h := (C6_creation_anchor_invariant.1 c6Contract c6GoodReq exLeaf 9 0
    (by rfl) (by decide)).2 (by decide)
  exact h.trans (by rfl)

/-! ### Tree preservation of each engine operation -/

/-- Children-only updates (insertion/removal of a child) keep the updated
tree's root id and type. -/
theorem updateNodeById_children_root_fields
    (g : ContractSectionNode → List ContractSectionNode)
    (n : ContractSectionNode) (nid : String) :
    (updateNodeById (fun p => .mk p.data (g p)) n nid).id = n.id ∧
    (updateNodeById (fun p => .mk p.data (g p)) n nid).type = n.type :=
  updateNodeById_root_fields (fun p => .mk p.data (g p)) (fun _ => ⟨rfl, rfl⟩) n nid

theorem handle_make_comment_tree (c : Contract) (req : NewCommentAnnotationRequest)
    (newId now : Nat) (c' : Contract)
    (hok : handle_make_comment c req newId now = .ok c') :
    c'.section_tree = c.section_tree := by
  unfold handle_make_comment validateAnchorText at hok
  repeat' split at hok
  all_goals first
    | exact Except.noConfusion hok
    | (have h2 := Except.ok.inj hok; subst h2; rfl)

theorem handle_edit_comment_tree (c : Contract) (req : EditCommentAnnotationRequest)
    (c' : Contract) (hok : handle_edit_comment c req = .ok c') :
    c'.section_tree = c.section_tree := by
  unfold handle_edit_comment validateAnchorText at hok
  repeat' split at hok
  all_goals first
    | exact Except.noConfusion hok
    | (have h2 := Except.ok.inj hok; subst h2; rfl)

theorem handle_make_revision_tree (c : Contract) (req : NewRevisionAnnotationRequest)
    (newId now : Nat) (c' : Contract)
    (hok : handle_make_revision c req newId now = .ok c') :
    c'.section_tree = c.section_tree := by
  unfold handle_make_revision validateAnchorText at hok
  repeat' split at hok
  all_goals first
    | exact Except.noConfusion hok
    | (have h2 := Except.ok.inj hok; subst h2; rfl)

theorem handle_edit_revision_tree (c : Contract) (req : EditRevisionAnnotationRequest)
    (c' : Contract) (hok : handle_edit_revision c req = .ok c') :
    c'.section_tree = c.section_tree := by
  unfold handle_edit_revision validateAnchorText at hok
  repeat' split at hok
  all_goals first
    | exact Except.noConfusion hok
    | (have h2 := Except.ok.inj hok; subst h2; rfl)

theorem handle_section_add_tree (c : Contract) (req : SectionAddAnnotationRequest)
    (newId now : Nat) (c' : Contract)
    (hok : handle_section_add c req newId now = .ok c') :
    c'.section_tree = c.section_tree := by
  unfold handle_section_add at hok
  repeat' split at hok
  all_goals first
    | exact Except.noConfusion hok
    | (have h2 := Except.ok.inj hok; subst h2; rfl)

theorem handle_section_remove_tree (c : Contract) (req : SectionRemoveAnnotationRequest)
    (newId now : Nat) (c' : Contract)
    (hok : handle_section_remove c req newId now = .ok c') :
    c'.section_tree = c.section_tree := by
  unfold handle_section_remove at hok
  repeat' split at hok
  all_goals first
    | exact Except.noConfusion hok
    | (have h2 := Except.ok.inj hok; subst h2; rfl)

theorem handle_resolve_revision_root_fields (c : Contract) (a : RevisionAnnotation)
    (res : ContractAnnotationResolution) (now : Nat) (c' : Contract)
    (hok : handle_resolve_revision c a res now = .ok c') :
    c'.section_tree.id = c.section_tree.id ∧
    c'.section_tree.type = c.section_tree.type := by
  unfold handle_resolve_revision validateAnchorText at hok
  repeat' split at hok
  all_goals first
    | exact Except.noConfusion hok
    | (have h2 := Except.ok.inj hok; subst h2; exact ⟨rfl, rfl⟩)
    | (have h2 := Except.ok.inj hok; subst h2;
       exact updateNodeById_root_fields _
         (fun n => ⟨setNodeMarkdown_id _ n, setNodeMarkdown_type _ n⟩)
         c.section_tree _)

theorem handle_resolve_section_add_root_fields (c : Contract)
    (a : SectionAddAnnotation) (res : ContractAnnotationResolution) (now : Nat)
    (c' : Contract) (hok : handle_resolve_section_add c a res now = .ok c') :
    c'.section_tree.id = c.section_tree.id ∧
    c'.section_tree.type = c.section_tree.type := by
  unfold handle_resolve_section_add at hok
  repeat' split at hok
  all_goals first
    | exact Except.noConfusion hok
    | (have h2 := Except.ok.inj hok; subst h2; exact ⟨rfl, rfl⟩)
    | (have h2 := Except.ok.inj hok; subst h2;
       exact updateNodeById_children_root_fields _ c.section_tree _)

theorem handle_resolve_section_remove_root_fields (c : Contract)
    (ann : ContractAnnotation) (res : ContractAnnotationResolution) (now : Nat)
    (c' : Contract) (hok : handle_resolve_section_remove c ann res now = .ok c') :
    c'.section_tree.id = c.section_tree.id ∧
    c'.section_tree.type = c.section_tree.type := by
  unfold handle_resolve_section_remove at hok
  repeat' split at hok
  all_goals first
    | exact Except.noConfusion hok
    | (have h2 := Except.ok.inj hok; subst h2; exact ⟨rfl, rfl⟩)
    | (have h2 := Except.ok.inj hok; subst h2;
       exact updateNodeById_children_root_fields _ c.section_tree _)

theorem resolveAnnotation_root_fields (c : Contract)
    (req : AnnotationResolutionRequest) (now : Nat) (c' : Contract)
    (hok : resolveAnnotation c req now = .ok c') :
    c'.section_tree.id = c.section_tree.id ∧
    c'.section_tree.type = c.section_tree.type := by
  unfold resolveAnnotation at hok
  split at hok
  · exact Except.noConfusion hok
  · split at hok
    · exact Except.noConfusion hok
    · split at hok
      all_goals first
        | exact Except.noConfusion hok
        | (have h2 := Except.ok.inj hok; subst h2; exact ⟨rfl, rfl⟩)
        | exact handle_resolve_revision_root_fields _ _ _ _ _ hok
        | exact handle_resolve_section_add_root_fields _ _ _ _ _ hok
        | exact handle_resolve_section_remove_root_fields _ _ _ _ _ hok

/-- C10: the root node can never be removed.  Creating a SectionRemove
annotation targeting the root id succeeds; resolving any SectionRemove
annotation whose target node has no `parent_id` fails (for every resolution
value) with the root-removal error raised before any mutation; and every
engine operation preserves the tree's root: creations/edits/deletions leave
the tree untouched, and every successful resolution keeps the root node's id
and type at the top of the tree. -/
theorem C10_root_preservation :
    (∀ (c : Contract) (req : SectionRemoveAnnotationRequest) (newId now : Nat),
      req.node_id = c.section_tree.id →
      ∃ c', handle_section_remove c req newId now = .ok c') ∧
    (∀ (c : Contract) (aid now : Nat) (a : SectionRemoveAnnotation)
        (res : ContractAnnotationResolution) (node : ContractSectionNode),
      getAnnotationById c.annotations aid = some (.section_remove a) →
      a.status = .pending →
      getNodeById c.section_tree a.node_id = some node →
      node.parent_id = none →
      resolveAnnotation c ⟨aid, .section_remove, res⟩ now =
        .error (.rootRemoval a.node_id)) ∧
    (∀ (c : Contract) (req : NewCommentAnnotationRequest) (newId now : Nat)
        (c' : Contract), handle_make_comment c req newId now = .ok c' →
      c'.section_tree = c.section_tree) ∧
    (∀ (c : Contract) (req : EditCommentAnnotationRequest) (c' : Contract),
      handle_edit_comment c req = .ok c' → c'.section_tree = c.section_tree) ∧
    (∀ (c : Contract) (req : NewRevisionAnnotationRequest) (newId now : Nat)
        (c' : Contract), handle_make_revision c req newId now = .ok c' →
      c'.section_tree = c.section_tree) ∧
    (∀ (c : Contract) (req : EditRevisionAnnotationRequest) (c' : Contract),
      handle_edit_revision c req = .ok c' → c'.section_tree = c.section_tree) ∧
    (∀ (c : Contract) (req : SectionAddAnnotationRequest) (newId now : Nat)
        (c' : Contract), handle_section_add c req newId now = .ok c' →
      c'.section_tree = c.section_tree) ∧
    (∀ (c : Contract) (req : SectionRemoveAnnotationRequest) (newId now : Nat)
        (c' : Contract), handle_section_remove c req newId now = .ok c' →
      c'.section_tree = c.section_tree) ∧
    (∀ (c : Contract) (req : AnnotationResolutionRequest) (now : Nat)
        (c' : Contract), resolveAnnotation c req now = .ok c' →
      c'.section_tree.id = c.section_tree.id ∧
      c'.section_tree.type = c.section_tree.type) ∧
    (∀ (c : Contract) (ids : List Nat),
      (deleteContractAnnotations c ids).1.section_tree = c.section_tree) := by
  refine ⟨?_, ?_, handle_make_comment_tree, handle_edit_comment_tree,
    handle_make_revision_tree, handle_edit_revision_tree,
    handle_section_add_tree, handle_section_remove_tree,
    resolveAnnotation_root_fields, fun c ids => rfl⟩
  · intro c req newId now hid
    have hn : getNodeById c.section_tree req.node_id = some c.section_tree := by
      rw [hid]
      exact getNodeById_self c.section_tree
    refine ⟨{ c with
        annotations := { c.annotations with
          section_removes := c.annotations.section_removes ++
            [{ id := newId, node_id := req.node_id, author := req.author,
               status := .pending, created_at := now, resolved_at := none }] },
        version := c.version + 1 }, ?_⟩
    unfold handle_section_remove
    rw [hn]
  · intro c aid now a res node h hp hn hpar
    rw [resolveAnnotation_section_remove_eq c aid a res now h hp]
    unfold handle_resolve_section_remove
    simp [ ContractAnnotation.nodeIdAttr, hn, hpar]

def c10Remove : SectionRemoveAnnotation :=
  { id := 8, node_id := "root", author := .user, status := .pending,
    created_at := 0, resolved_at := none }

def c10Contract : Contract :=
  { section_tree := exTree,
    annotations := { section_removes := [c10Remove] }, version := 1 }

/-- Witness for C10: accepting a SectionRemove annotation that targets the
root node fails with the root-removal error. -/
theorem C10_witness :
    resolveAnnotation c10Contract ⟨8, .section_remove, .accepted⟩ 2 =
      .error (.rootRemoval "root") := by
  have h := C10_root_preservation.2.1 c10Contract 8 2 c10Remove .accepted exTree
    (by rfl) (by rfl) (by rfl) (by rfl)
  exact h

/-! ### Version accounting of each engine operation -/

theorem handle_make_comment_version (c : Contract) (req : NewCommentAnnotationRequest)
    (newId now : Nat) (c' : Contract)
    (hok : handle_make_comment c req newId now = .ok c') :
    c'.version = c.version + 1 := by
  unfold handle_make_comment validateAnchorText at hok
  repeat' split at hok
  all_goals first
    | exact Except.noConfusion hok
    | (have h2 := Except.ok.inj hok; subst h2; rfl)

theorem handle_edit_comment_version (c : Contract) (req : EditCommentAnnotationRequest)
    (c' : Contract) (hok : handle_edit_comment c req = .ok c') :
    c'.version = c.version + 1 := by
  unfold handle_edit_comment validateAnchorText at hok
  repeat' split at hok
  all_goals first
    | exact Except.noConfusion hok
    | (have h2 := Except.ok.inj hok; subst h2; rfl)

theorem handle_make_revision_version (c : Contract) (req : NewRevisionAnnotationRequest)
    (newId now : Nat) (c' : Contract)
    (hok : handle_make_revision c req newId now = .ok c') :
    c'.version = c.version + 1 := by
  unfold handle_make_revision validateAnchorText at hok
  repeat' split at hok
  all_goals first
    | exact Except.noConfusion hok
    | (have h2 := Except.ok.inj hok; subst h2; rfl)

theorem handle_edit_revision_version (c : Contract) (req : EditRevisionAnnotationRequest)
    (c' : Contract) (hok : handle_edit_revision c req = .ok c') :
    c'.version = c.version + 1 := by
  unfold handle_edit_revision validateAnchorText at hok
  repeat' split at hok
  all_goals first
    | exact Except.noConfusion hok
    | (have h2 := Except.ok.inj hok; subst h2; rfl)

theorem handle_section_add_version (c : Contract) (req : SectionAddAnnotationRequest)
    (newId now : Nat) (c' : Contract)
    (hok : handle_section_add c req newId now = .ok c') :
    c'.version = c.version + 1 := by
  unfold handle_section_add at hok
  repeat' split at hok
  all_goals first
    | exact Except.noConfusion hok
    | (have h2 := Except.ok.inj hok; subst h2; rfl)

theorem handle_section_remove_version (c : Contract) (req : SectionRemoveAnnotationRequest)
    (newId now : Nat) (c' : Contract)
    (hok : handle_section_remove c req newId now = .ok c') :
    c'.version = c.version + 1 := by
  unfold handle_section_remove at hok
  repeat' split at hok
  all_goals first
    | exact Except.noConfusion hok
    | (have h2 := Except.ok.inj hok; subst h2; rfl)

theorem handle_resolve_revision_version (c : Contract) (a : RevisionAnnotation)
    (res : ContractAnnotationResolution) (now : Nat) (c' : Contract)
    (hok : handle_resolve_revision c a res now = .ok c') :
    c'.version = c.version + 1 := by
  unfold handle_resolve_revision validateAnchorText at hok
  repeat' split at hok
  all_goals first
    | exact Except.noConfusion hok
    | (have h2 := Except.ok.inj hok; subst h2; rfl)

theorem handle_resolve_section_add_version (c : Contract) (a : SectionAddAnnotation)
    (res : ContractAnnotationResolution) (now : Nat) (c' : Contract)
    (hok : handle_resolve_section_add c a res now = .ok c') :
    c'.version = c.version + 1 := by
  unfold handle_resolve_section_add at hok
  repeat' split at hok
  all_goals first
    | exact Except.noConfusion hok
    | (have h2 := Except.ok.inj hok; subst h2; rfl)

theorem handle_resolve_section_remove_version (c : Contract)
    (ann : ContractAnnotation) (res : ContractAnnotationResolution) (now : Nat)
    (c' : Contract) (hok : handle_resolve_section_remove c ann res now = .ok c') :
    c'.version = c.version + 1 := by
  unfold handle_resolve_section_remove at hok
  repeat' split at hok
  all_goals first
    | exact Except.noConfusion hok
    | (have h2 := Except.ok.inj hok; subst h2; rfl)

theorem resolveAnnotation_version (c : Contract) (req : AnnotationResolutionRequest)
    (now : Nat) (c' : Contract) (hok : resolveAnnotation c req now = .ok c') :
    c'.version = c.version + 1 := by
  unfold resolveAnnotation at hok
  split at hok
  · exact Except.noConfusion hok
  · split at hok
    · exact Except.noConfusion hok
    · split at hok
      all_goals first
        | exact Except.noConfusion hok
        | (have h2 := Except.ok.inj hok; subst h2; rfl)
        | exact handle_resolve_revision_version _ _ _ _ _ hok
        | exact handle_resolve_section_add_version _ _ _ _ _ hok
        | exact handle_resolve_section_remove_version _ _ _ _ _ hok

/-! ### Deletion accounting -/

theorem getAnnotationById_some_mem (anns : ContractAnnotations) (aid : Nat)
    (y : ContractAnnotation) (h : getAnnotationById anns aid = some y) :
    y ∈ anns.all ∧ y.id = aid := by
  unfold getAnnotationById at h
  refine ⟨List.mem_of_find?_eq_some h, ?_⟩
  have := List.find?_some h
  simpa using this

theorem deleteAnnotationById_some_exists (anns : ContractAnnotations) (aid : Nat)
    (anns' : ContractAnnotations) (h : deleteAnnotationById anns aid = some anns') :
    ∃ x ∈ anns.all, x.id = aid := by
  unfold deleteAnnotationById at h
  cases hg : getAnnotationById anns aid with
  | none => rw [hg] at h; exact Option.noConfusion h
  | some y =>
    obtain ⟨hm, hid⟩ := getAnnotationById_some_mem _ _ _ hg
    exact ⟨y, hm, hid⟩

theorem deleteAnnotationById_none_forall (anns : ContractAnnotations) (aid : Nat)
    (h : deleteAnnotationById anns aid = none) :
    ∀ x ∈ anns.all, x.id ≠ aid := by
  unfold deleteAnnotationById at h
  cases hg : getAnnotationById anns aid with
  | none =>
    unfold getAnnotationById at hg
    intro x hx
    have := List.find?_eq_none.mp hg x hx
    simpa using this
  | some y =>
    rw [hg] at h
    cases y <;> exact Option.noConfusion h

/-- The deletion loop reports at least one deleted id iff some supplied id
matches an annotation of the initial store. -/
theorem deleteAnnotationsGo_deleted_iff (ids : List Nat) :
    ∀ (anns : ContractAnnotations),
      (deleteAnnotationsGo anns ids).2.1 ≠ [] ↔ ∃ x ∈ anns.all, x.id ∈ ids := by
  induction ids with
  | nil => intro anns; simp [deleteAnnotationsGo]
  | cons i is ih =>
    intro anns
    cases hd : deleteAnnotationById anns i with
    | some anns' =>
      obtain ⟨x, hx, hid⟩ := deleteAnnotationById_some_exists _ _ _ hd
      simp only [deleteAnnotationsGo, hd]
      constructor
      · intro _
        exact ⟨x, hx, by simp [hid]⟩
      · intro _
        simp
    | none =>
      have hnone := deleteAnnotationById_none_forall _ _ hd
      simp only [deleteAnnotationsGo, hd]
      rw [ih anns]
      constructor
      · rintro ⟨x, hx, hxin⟩
        exact ⟨x, hx, by simp [hxin]⟩
      · rintro ⟨x, hx, hxin⟩
        rcases List.mem_cons.mp hxin with hxi | hxis
        · exact absurd hxi (hnone x hx)
        · exact ⟨x, hx, hxis⟩

/-- C7: every successful top-level mutating engine call — annotation creation,
edit, and every resolution whether accepted or rejected — increases the
document version by exactly 1 (read-only queries are pure functions in this
embedding and return no mutated aggregate at all); and
`delete_contract_annotations` increments the version exactly once iff at least
one supplied id matched an annotation, and not at all otherwise. -/
theorem C7_version_discipline :
    (∀ (c : Contract) (req : NewCommentAnnotationRequest) (newId now : Nat)
        (c' : Contract), handle_make_comment c req newId now = .ok c' →
      c'.version = c.version + 1) ∧
    (∀ (c : Contract) (req : EditCommentAnnotationRequest) (c' : Contract),
      handle_edit_comment c req = .ok c' → c'.version = c.version + 1) ∧
    (∀ (c : Contract) (req : NewRevisionAnnotationRequest) (newId now : Nat)
        (c' : Contract), handle_make_revision c req newId now = .ok c' →
      c'.version = c.version + 1) ∧
    (∀ (c : Contract) (req : EditRevisionAnnotationRequest) (c' : Contract),
      handle_edit_revision c req = .ok c' → c'.version = c.version + 1) ∧
    (∀ (c : Contract) (req : SectionAddAnnotationRequest) (newId now : Nat)
        (c' : Contract), handle_section_add c req newId now = .ok c' →
      c'.version = c.version + 1) ∧
    (∀ (c : Contract) (req : SectionRemoveAnnotationRequest) (newId now : Nat)
        (c' : Contract), handle_section_remove c req newId now = .ok c' →
      c'.version = c.version + 1) ∧
    (∀ (c : Contract) (req : AnnotationResolutionRequest) (now : Nat)
        (c' : Contract), resolveAnnotation c req now = .ok c' →
      c'.version = c.version + 1) ∧
    (∀ (c : Contract) (ids : List Nat),
      ((deleteContractAnnotations c ids).1.version = c.version + 1 ↔
        ∃ x ∈ c.annotations.all, x.id ∈ ids) ∧
      ((deleteContractAnnotations c ids).1.version = c.version ↔
        ¬ ∃ x ∈ c.annotations.all, x.id ∈ ids)) := by
  refine ⟨handle_make_comment_version, handle_edit_comment_version,
    handle_make_revision_version, handle_edit_revision_version,
    handle_section_add_version, handle_section_remove_version,
    resolveAnnotation_version, ?_⟩
  intro c ids
  have hiff := deleteAnnotationsGo_deleted_iff ids c.annotations
  have hver : (deleteContractAnnotations c ids).1.version =
      if (deleteAnnotationsGo c.annotations ids).2.1.isEmpty then c.version
      else c.version + 1 := rfl
  by_cases hempty : (deleteAnnotationsGo c.annotations ids).2.1 = []
  · have hnot : ¬ ∃ x ∈ c.annotations.all, x.id ∈ ids := fun hex => (hiff.mpr hex) hempty
    have hverPos : (deleteContractAnnotations c ids).1.version = c.version := by
      rw [hver, hempty]
      rfl
    rw [hverPos]
    constructor
    · constructor
      · intro hv
        exact absurd hv (by omega)
      · intro hex
        exact absurd hex hnot
    · exact ⟨fun _ => hnot, fun _ => rfl⟩
  · have hex := hiff.mp hempty
    have hemp : (deleteAnnotationsGo c.annotations ids).2.1.isEmpty = false := by
      cases hval : (deleteAnnotationsGo c.annotations ids).2.1 with
      | nil => exact absurd hval hempty
      | cons y ys => rfl
    have hverNeg : (deleteContractAnnotations c ids).1.version = c.version + 1 := by
      rw [hver, hemp]
      rfl
    rw [hverNeg]
    constructor
    · exact ⟨fun _ => hex, fun _ => rfl⟩
    · constructor
      · intro hv
        exact absurd hv (by omega)
      · intro hnex
        exact absurd hex hnex

def c7DeleteHit : List Nat := [3]

def c7DeleteMiss : List Nat := [99]

/-- Witness for C7: a successful comment resolution bumps the version by 1;
deleting an existing annotation id bumps it once; deleting a non-matching id
leaves it unchanged. -/
theorem C7_witness :
    (∃ c', resolveAnnotation c2Contract ⟨3, .comment, .accepted⟩ 9 = .ok c' ∧
      c'.version = c2Contract.version + 1) ∧
    (deleteContractAnnotations c4Contract c7DeleteHit).1.version =
      c4Contract.version + 1 ∧
    (deleteContractAnnotations c4Contract c7DeleteMiss).1.version =
      c4Contract.version := by
  refine ⟨⟨handle_resolve_comment c2Contract exComment 9, rfl, ?_⟩, ?_, ?_⟩
  · exact C7_version_discipline.2.2.2.2.2.2.1 c2Contract ⟨3, .comment, .accepted⟩ 9
      (handle_resolve_comment c2Contract exComment 9) (by rfl)
  · refine ((C7_version_discipline.2.2.2.2.2.2.2 c4Contract c7DeleteHit).1).mpr ?_
    refine ⟨.comment c4Comment, ?_, by decide⟩
    rw [show c4Contract.annotations.all = [ ContractAnnotation.comment c4Comment] from rfl]
    exact List.mem_singleton.mpr rfl
  · refine ((C7_version_discipline.2.2.2.2.2.2.2 c4Contract c7DeleteMiss).2).mpr ?_
    rintro ⟨x, hx, hid⟩
    rw [show c4Contract.annotations.all = [ ContractAnnotation.comment c4Comment] from rfl] at hx
    rw [List.mem_singleton.mp hx] at hid
    exact absurd hid (by decide)

/-! ### Spec-side flatten (depth-tagged preorder)

For the flatten claim, the reference definition follows the spec's words —
"DFS preorder, nodes strictly under the given root, down to `max_depth`
relative levels" — as the preorder list of strict descendants tagged with
their relative depth, filtered by depth. -/

mutual

def withDepthNode : ContractSectionNode → Int → List (Int × ContractSectionNode)
  | .mk _ ccs, k => withDepthList ccs (k + 1)

def withDepthList : List ContractSectionNode → Int → List (Int × ContractSectionNode)
  | [], _ => []
  | c :: cs, k => (k, c) :: (withDepthNode c k ++ withDepthList cs k)

end

/-- Whether the code returns a strict descendant sitting at relative depth
`k` when the depth cap is `m`, with the always-kept exception depth `dexc`:
the `dfs` loop appends every child of the current node before consulting the
depth guard, so nodes at the exception depth are returned even when the cap
would exclude them. -/
def keepAtDepth (m dexc k : Int) : Bool :=
  k = dexc || k ≤ m

/-- A node at relative depth `k` is returned: always when `max_depth` is
omitted; otherwise when `k ≤ max_depth` — except that direct children
(relative depth 1) are always returned, even when `max_depth ≤ 0`, because
the loop appends each child before checking the guard. -/
def keepDepth (max_depth : Option Int) (k : Int) : Bool :=
  match max_depth with
  | none => true
  | some m => keepAtDepth m 1 k

/-- Spec-side flatten: the starting node (unless it is the root sentinel)
followed by the strict descendants in preorder, restricted by `keepDepth`. -/
def specFlatten (node : ContractSectionNode) (max_depth : Option Int) :
    List ContractSectionNode :=
  (if node.type = ContractSectionType.root then [] else [node]) ++
    ((withDepthList node.children 1).filter (fun p => keepDepth max_depth p.1)).map
      Prod.snd

mutual

theorem withDepthNode_depth_ge :
    ∀ (c : ContractSectionNode) (k : Int), ∀ p ∈ withDepthNode c k, k ≤ p.1
  | .mk dd ccs, k => by
    intro p hp
    rw [show withDepthNode (.mk dd ccs) k = withDepthList ccs (k + 1) from rfl] at hp
    have := withDepthList_depth_ge ccs (k + 1) p hp
    omega

theorem withDepthList_depth_ge :
    ∀ (cs : List ContractSectionNode) (k : Int), ∀ p ∈ withDepthList cs k, k ≤ p.1
  | [], _ => by simp [withDepthList]
  | c :: cs, k => by
    intro p hp
    rw [show withDepthList (c :: cs) k = (k, c) :: (withDepthNode c k ++ withDepthList cs k)
      from rfl] at hp
    rcases List.mem_cons.mp hp with h | h
    · rw [h]
    · rcases List.mem_append.mp h with h2 | h2
      · exact withDepthNode_depth_ge c k p h2
      · exact withDepthList_depth_ge cs k p h2

end

theorem filter_keepAtDepth_deep (m dexc : Int) (cs : List ContractSectionNode)
    (k : Int) (hk : m < k) (hd : dexc < k) :
    (withDepthList cs k).filter (fun p => keepAtDepth m dexc p.1) = [] := by
  rw [List.filter_eq_nil]
  intro p hp
  have := withDepthList_depth_ge cs k p hp
  simp only [keepAtDepth, Bool.or_eq_true, decide_eq_true_eq, not_or]
  omega

theorem filter_keepAtDepth_shift (m : Int) (cs : List ContractSectionNode) (d : Int)
    (hm : d + 1 + 1 ≤ m) :
    (withDepthList cs (d + 1 + 1)).filter (fun p => keepAtDepth m (d + 1 + 1) p.1) =
      (withDepthList cs (d + 1 + 1)).filter (fun p => keepAtDepth m (d + 1) p.1) := by
  apply List.filter_congr
  intro p hp
  have hdep := withDepthList_depth_ge cs (d + 1 + 1) p hp
  by_cases hle : p.1 ≤ m
  · simp [keepAtDepth, hle]
  · have h1 : ¬ p.1 = d + 1 + 1 := by omega
    have h2 : ¬ p.1 = d + 1 := by omega
    simp [keepAtDepth, hle, h1, h2]

theorem dfsFlattenList_none_eq :
    ∀ (cs : List ContractSectionNode) (d k : Int),
      dfsFlattenList none cs d = (withDepthList cs k).map Prod.snd
  | [], _, _ => by simp [dfsFlattenList, withDepthList]
  | .mk dd ccs :: cs, d, k => by
    rw [show dfsFlattenList none (.mk dd ccs :: cs) d =
        .mk dd ccs :: ((if dfsGuard none d then dfsFlatten none (.mk dd ccs) (d + 1)
          else []) ++ dfsFlattenList none cs d) from rfl]
    rw [show withDepthList (.mk dd ccs :: cs) k =
        (k, .mk dd ccs) :: (withDepthNode (.mk dd ccs) k ++ withDepthList cs k) from rfl]
    rw [show withDepthNode (.mk dd ccs) k = withDepthList ccs (k + 1) from rfl]
    simp only [dfsGuard, if_true, List.map_cons, List.map_append]
    rw [show dfsFlatten none (.mk dd ccs) (d + 1) = dfsFlattenList none ccs (d + 1)
      from rfl]
    rw [dfsFlattenList_none_eq ccs (d + 1) (k + 1), dfsFlattenList_none_eq cs d k]

theorem dfsFlattenList_some_eq (m : Int) :
    ∀ (cs : List ContractSectionNode) (d : Int),
      dfsFlattenList (some m) cs d =
        ((withDepthList cs (d + 1)).filter (fun p => keepAtDepth m (d + 1) p.1)).map
          Prod.snd
  | [], _ => by simp [dfsFlattenList, withDepthList]
  | .mk dd ccs :: cs, d => by
    have hkeep : keepAtDepth m (d + 1) (d + 1) = true := by
      simp [keepAtDepth]
    rw [show dfsFlattenList (some m) (.mk dd ccs :: cs) d =
        .mk dd ccs :: ((if dfsGuard (some m) d then dfsFlatten (some m) (.mk dd ccs) (d + 1)
          else []) ++ dfsFlattenList (some m) cs d) from rfl]
    rw [show withDepthList (.mk dd ccs :: cs) (d + 1) =
        (d + 1, .mk dd ccs) :: (withDepthNode (.mk dd ccs) (d + 1)
          ++ withDepthList cs (d + 1)) from rfl]
    rw [show withDepthNode (.mk dd ccs) (d + 1) = withDepthList ccs (d + 1 + 1) from rfl]
    simp only [List.filter_cons, hkeep, if_true, List.filter_append, List.map_cons,
      List.map_append]
    rw [show dfsFlatten (some m) (.mk dd ccs) (d + 1) = dfsFlattenList (some m) ccs (d + 1)
      from rfl]
    by_cases hg : dfsGuard (some m) d = true
    · have hg2 : d + 1 + 1 ≤ m := by
        have : d < m - 1 := by simpa [dfsGuard, decide_eq_true_eq] using hg
        omega
      rw [if_pos hg]
      rw [dfsFlattenList_some_eq m ccs (d + 1), dfsFlattenList_some_eq m cs d]
      rw [filter_keepAtDepth_shift m ccs d hg2]
    · have hg2 : m < d + 1 + 1 := by
        have : ¬ d < m - 1 := by simpa [dfsGuard, decide_eq_true_eq] using hg
        omega
      rw [if_neg hg]
      rw [filter_keepAtDepth_deep m (d + 1) ccs (d + 1 + 1) hg2 (by omega)]
      rw [dfsFlattenList_some_eq m cs d]
      rfl

def c9StartNode : ContractSectionNode := exLeaf

/-- Counterexample to C9 as stated, in two parts.  First: flatten started at a
non-root node includes the starting node itself — `exLeaf` has no children, so
the set of nodes strictly under it is empty, yet `flatten(exLeaf)` returns
`[exLeaf]`.  Second: with `max_depth = 0` the claim allows no nodes at all
("down to 0 relative levels"), yet the code still returns the depth-1
children, because the `dfs` loop appends every child before consulting the
`current_depth < max_depth - 1` guard: `flatten(exTree, 0)` returns
`[exLeaf]`. -/
theorem C9_counterexample :
    (flattenSectionTree c9StartNode none = [c9StartNode] ∧
      ([c9StartNode] : List ContractSectionNode) ≠ []) ∧
    (flattenSectionTree exTree (some 0) = [exLeaf] ∧
      ([exLeaf] : List ContractSectionNode) ≠ []) :=
  ⟨⟨rfl, by simp⟩, ⟨rfl, by simp⟩⟩

/-- C9 (amended): for every starting node and every `max_depth`, flatten
returns the starting node itself (unless its type is `root` — only the root
sentinel is excluded) followed by the nodes strictly under it in DFS preorder,
where a strict descendant at relative depth `k` is included iff `max_depth` is
omitted, or `k = 1` (direct children are always included, even when
`max_depth ≤ 0`), or `k ≤ max_depth`; and when started at the root sentinel
(with no root-typed strict descendant, as the data-model invariant
guarantees) its length equals the count of non-root nodes so selected. -/
theorem C9_flatten (node : ContractSectionNode) (max_depth : Option Int) :
    flattenSectionTree node max_depth = specFlatten node max_depth ∧
    (node.type = ContractSectionType.root →
      (∀ p ∈ withDepthList node.children 1, p.2.type ≠ ContractSectionType.root) →
      (flattenSectionTree node max_depth).length =
        ((withDepthList node.children 1).filter
          (fun p => keepDepth max_depth p.1)).countP
          (fun p => decide (p.2.type ≠ ContractSectionType.root))) := by
  have hdfs : dfsFlatten max_depth node 0 = dfsFlattenList max_depth node.children 0 := by
    cases node
    rfl
  have hmain : flattenSectionTree node max_depth = specFlatten node max_depth := by
    unfold flattenSectionTree specFlatten
    rw [hdfs]
    have hpre : (if node.type ≠ ContractSectionType.root then [node] else []) =
        (if node.type = ContractSectionType.root then [] else [node]) := by
      by_cases ht : node.type = ContractSectionType.root <;> simp [ht]
    rw [hpre]
    cases max_depth with
    | none =>
      rw [dfsFlattenList_none_eq node.children 0 1]
      have : (withDepthList node.children 1).filter (fun p => keepDepth none p.1) =
          withDepthList node.children 1 := by
        simp [keepDepth]
      rw [this]
    | some m =>
      rw [dfsFlattenList_some_eq m node.children 0]
      simp only [keepDepth]
      norm_num
  refine ⟨hmain, ?_⟩
  intro ht hnoroot
  rw [hmain]
  unfold specFlatten
  rw [if_pos ht]
  rw [List.nil_append, List.length_map]
  symm
  rw [List.countP_eq_length]
  intro p hp
  have hmem := (List.mem_filter.mp hp).1
  have := hnoroot p hmem
  simpa using this

/-- Witness for C9 (amended): flatten from the root sentinel of `exTree`
matches the spec-side flatten and has length 1 (the single non-root node),
both for unbounded depth and for `max_depth = 0` (where the direct child is
still returned). -/
theorem C9_witness :
    (flattenSectionTree exTree none = specFlatten exTree none ∧
      (flattenSectionTree exTree none).length = 1) ∧
    (flattenSectionTree exTree (some 0) = specFlatten exTree (some 0) ∧
      (flattenSectionTree exTree (some 0)).length = 1) := by
  obtain ⟨heq1, hlen1⟩ := C9_flatten exTree none
  obtain ⟨heq2, hlen2⟩ := C9_flatten exTree (some 0)
  refine ⟨⟨heq1, ?_⟩, ⟨heq2, ?_⟩⟩
  · exact (hlen1 (by rfl) (by decide)).trans (by decide)
  · exact (hlen2 (by rfl) (by decide)).trans (by decide)

end Ironbad
